import Mathlib

/-!
Shallow embedding of `src/icalendar/prop.py`: the iCalendar (RFC 5545)
property-value codecs, together with the external primitives the module uses
(Python `int`, `base64.b64decode`, `datetime` construction and arithmetic, a
small model of the `pytz` zone database, and the collaborators
`escape_char`/`unescape_char`/`tzid_from_dt`/`CaselessDict` that live in
files absent from `src/`).

Python strings are modelled as `List Char` (`PyStr`), Python exceptions as
`PyErr`, and every fallible operation returns `Except PyErr _`.
-/

namespace ICal

deriving instance DecidableEq for Except

/-- The Python exceptions that occur in the embedded code.  The module's
"InvalidValue" convention is `ValueError` with a message; `TypeError` and
`KeyError` are foreign errors that some paths let escape. -/
inductive PyErr where
  | valueError (msg : String)
  | typeError
  | keyError (key : String)
deriving Repr, DecidableEq

/-- Python text, modelled as a list of characters. -/
abbrev PyStr := List Char

/-- Python slice `s[a:b]` for `0 ≤ a ≤ b`. -/
def pySlice (cs : PyStr) (a b : Nat) : PyStr := (cs.drop a).take (b - a)

/-- Numeric value of a decimal digit character. -/
def digitVal (c : Char) : Nat := c.toNat - 48

/-- The decimal digit characters, as produced by `"%d"` formatting. -/
def digitChar : Nat → Char
  | 0 => '0' | 1 => '1' | 2 => '2' | 3 => '3' | 4 => '4'
  | 5 => '5' | 6 => '6' | 7 => '7' | 8 => '8' | _ => '9'

/-- Value of a nonempty all-digit string.  This is the core of Python
`int(s)` on the strings that arise in this module (Python `int` additionally
tolerates surrounding whitespace and underscore digit separators, which no
input here exercises). -/
def parseNatDigits (cs : PyStr) : Option Nat :=
  if cs ≠ [] ∧ cs.all Char.isDigit then
    some (cs.foldl (fun a c => 10 * a + digitVal c) 0)
  else none

/-- Python `int(s)`: an optional sign followed by digits. -/
def pyInt (cs : PyStr) : Option Int :=
  match cs with
  | '+' :: rest => (parseNatDigits rest).map Int.ofNat
  | '-' :: rest => (parseNatDigits rest).map (fun n => -(n : Int))
  | _ => (parseNatDigits cs).map Int.ofNat

/-- Digit-accumulating loop for `natDigits`; the fuel argument (always
at least the digit count) keeps the recursion structural. -/
def natDigitsGo (fuel : Nat) (n : Nat) (acc : PyStr) : PyStr :=
  match fuel with
  | 0 => acc
  | f + 1 => if n = 0 then acc else natDigitsGo f (n / 10) (digitChar (n % 10) :: acc)

/-- Decimal rendering of a natural number, most significant digit first,
as `"%d"` renders it. -/
def natDigits (n : Nat) : PyStr :=
  if n = 0 then ['0'] else natDigitsGo n n []

/-- `"%0*d"` on a natural number: left-pad the decimal rendering with zeros
to width `w` (never truncates). -/
def padNum (w : Nat) (n : Nat) : PyStr :=
  List.replicate (w - (natDigits n).length) '0' ++ natDigits n

/-- `"%0*d"` on an integer field already validated nonnegative. -/
def pad (w : Nat) (n : Int) : PyStr := padNum w n.toNat

/-- Python `str(n)` for an integer. -/
def intDigits (n : Int) : PyStr :=
  if n < 0 then '-' :: natDigits n.natAbs else natDigits n.toNat

theorem digitChar_isDigit (d : Nat) (h : d < 10) : (digitChar d).isDigit = true := by
  interval_cases d <;> rfl

theorem digitVal_digitChar (d : Nat) (h : d < 10) : digitVal (digitChar d) = d := by
  interval_cases d <;> rfl

theorem natDigitsGo_eq (fuel n : Nat) (acc : PyStr) (h : n ≤ fuel) :
    natDigitsGo fuel n acc = ((Nat.digits 10 n).map digitChar).reverse ++ acc := by
  induction fuel generalizing n acc with
  | zero =>
    have hn : n = 0 := Nat.le_zero.mp h
    subst hn
    simp [natDigitsGo]
  | succ f ih =>
    rw [natDigitsGo]
    by_cases hn : n = 0
    · subst hn; simp
    · rw [if_neg hn, ih (n / 10) _ (by omega),
        Nat.digits_def' (by norm_num : (1 : Nat) < 10) (Nat.pos_of_ne_zero hn)]
      simp

theorem natDigits_eq (n : Nat) :
    natDigits n = if n = 0 then ['0'] else ((Nat.digits 10 n).map digitChar).reverse := by
  unfold natDigits
  by_cases hn : n = 0
  · simp [hn]
  · rw [if_neg hn, if_neg hn, natDigitsGo_eq n n [] (le_refl n), List.append_nil]

theorem foldl_digits_eq_ofDigits (ds : List Nat) (hds : ∀ d ∈ ds, d < 10) (a : Nat) :
    ((ds.map digitChar).reverse).foldl (fun a c => 10 * a + digitVal c) a
      = a * 10 ^ ds.length + Nat.ofDigits 10 ds := by
  induction ds generalizing a with
  | nil => simp
  | cons d tl ih =>
    have hd : d < 10 := hds d (by simp)
    have htl : ∀ x ∈ tl, x < 10 := fun x hx => hds x (by simp [hx])
    simp only [List.map_cons, List.reverse_cons, List.foldl_append, List.foldl_cons,
      List.foldl_nil, ih htl a, Nat.ofDigits_cons, List.length_cons]
    rw [digitVal_digitChar d hd]
    ring

theorem natDigits_ne_nil (n : Nat) : natDigits n ≠ [] := by
  rw [natDigits_eq]
  split
  · simp
  · rename_i h
    have hd : Nat.digits 10 n ≠ [] := Nat.digits_ne_nil_iff_ne_zero.mpr h
    simp [hd]

theorem natDigits_all_digit (n : Nat) : (natDigits n).all Char.isDigit = true := by
  rw [natDigits_eq]
  split
  · rfl
  · rename_i h
    rw [List.all_reverse, List.all_eq_true]
    intro c hc
    obtain ⟨d, hd, rfl⟩ := List.mem_map.mp hc
    exact digitChar_isDigit d (Nat.digits_lt_base (by norm_num) hd)

theorem parseNatDigits_natDigits (n : Nat) : parseNatDigits (natDigits n) = some n := by
  unfold parseNatDigits
  rw [if_pos ⟨natDigits_ne_nil n, by rw [natDigits_all_digit n]⟩]
  rw [natDigits_eq]
  split
  · rename_i h; subst h; rfl
  · rename_i h
    rw [foldl_digits_eq_ofDigits _ (fun d hd => Nat.digits_lt_base (by norm_num) hd) 0]
    simp [Nat.ofDigits_digits]

theorem natDigits_length_le (n w : Nat) (hw : 1 ≤ w) (h : n < 10 ^ w) :
    (natDigits n).length ≤ w := by
  rw [natDigits_eq]
  split
  · simpa using hw
  · rename_i h0
    simp only [List.length_reverse, List.length_map]
    rw [Nat.digits_len 10 n (by norm_num) h0]
    have := (Nat.lt_pow_iff_log_lt (by norm_num : (1 : Nat) < 10) h0).mp h
    omega

theorem padNum_length (w n : Nat) (hw : 1 ≤ w) (h : n < 10 ^ w) : (padNum w n).length = w := by
  have := natDigits_length_le n w hw h
  simp only [padNum, List.length_append, List.length_replicate]
  omega

theorem padNum_all_digit (w n : Nat) : (padNum w n).all Char.isDigit = true := by
  simp only [padNum, List.all_append, List.all_eq_true, Bool.and_eq_true]
  refine ⟨fun c hc => ?_, by simpa using natDigits_all_digit n⟩
  rw [List.eq_of_mem_replicate hc]; rfl

theorem foldl_zeros (k : Nat) (ds : PyStr) :
    (List.replicate k '0' ++ ds).foldl (fun a c => 10 * a + digitVal c) 0
      = ds.foldl (fun a c => 10 * a + digitVal c) 0 := by
  induction k with
  | zero => rfl
  | succ k ih => simpa [List.replicate_succ] using ih

theorem parseNatDigits_padNum (w n : Nat) : parseNatDigits (padNum w n) = some n := by
  have hne : padNum w n ≠ [] := by
    simp only [padNum]
    intro h
    exact natDigits_ne_nil n (by simpa using (List.append_eq_nil.mp h).2)
  unfold parseNatDigits
  rw [if_pos ⟨hne, by rw [padNum_all_digit w n]⟩]
  simp only [padNum, foldl_zeros]
  have := parseNatDigits_natDigits n
  unfold parseNatDigits at this
  rw [if_pos ⟨natDigits_ne_nil n, by rw [natDigits_all_digit n]⟩] at this
  simpa using this

theorem pyInt_of_all_digit (cs : PyStr) (h : cs.all Char.isDigit = true) :
    pyInt cs = (parseNatDigits cs).map Int.ofNat := by
  match cs with
  | [] => rfl
  | c :: rest =>
    have hc : c.isDigit = true := by
      simp only [List.all_cons, Bool.and_eq_true] at h
      exact h.1
    unfold pyInt
    have h1 : c ≠ '+' := by rintro rfl; simp [Char.isDigit] at hc
    have h2 : c ≠ '-' := by rintro rfl; simp [Char.isDigit] at hc
    split
    · rename_i heq; injection heq with heq1 _; exact absurd heq1 h1
    · rename_i heq; injection heq with heq1 _; exact absurd heq1 h2
    · rfl

theorem pyInt_padNum (w n : Nat) : pyInt (padNum w n) = some (n : Int) := by
  rw [pyInt_of_all_digit _ (padNum_all_digit w n), parseNatDigits_padNum]
  rfl

theorem pyInt_pad (w : Nat) (n : Int) (h : 0 ≤ n) : pyInt (pad w n) = some n := by
  rw [pad, pyInt_padNum, Int.toNat_of_nonneg h]

/-! ### Case mapping (ASCII model of Python `str.upper` / `str.lower`) -/

def pyUpperChar (c : Char) : Char :=
  if 'a' ≤ c ∧ c ≤ 'z' then Char.ofNat (c.toNat - 32) else c

def pyLowerChar (c : Char) : Char :=
  if 'A' ≤ c ∧ c ≤ 'Z' then Char.ofNat (c.toNat + 32) else c

def pyUpper (cs : PyStr) : PyStr := cs.map pyUpperChar

def pyLower (cs : PyStr) : PyStr := cs.map pyLowerChar

/-! ### The proleptic Gregorian calendar and Python `datetime` arithmetic -/

/-- The Gregorian leap-year rule. -/
def isLeap (y : Int) : Bool := y % 4 == 0 && (y % 100 != 0 || y % 400 == 0)

def daysInMonth (y m : Int) : Int :=
  if m = 2 then (if isLeap y then 29 else 28)
  else if m = 4 ∨ m = 6 ∨ m = 9 ∨ m = 11 then 30
  else 31

/-- Python `datetime.date`. -/
structure PyDate where
  year : Int
  month : Int
  day : Int
deriving Repr, DecidableEq

/-- Python `datetime.datetime`; `tz` is the name of the attached pytz zone
(`none` for a timezone-naive moment).  Sub-second precision never arises in
this module and is not modelled. -/
structure PyDatetime where
  year : Int
  month : Int
  day : Int
  hour : Int
  minute : Int
  second : Int
  tz : Option String
deriving Repr, DecidableEq

/-- Python `datetime.time`. -/
structure PyTime where
  hour : Int
  minute : Int
  second : Int
  tz : Option String
deriving Repr, DecidableEq

def validDateFields (y m d : Int) : Bool :=
  1 ≤ y && y ≤ 9999 && 1 ≤ m && m ≤ 12 && 1 ≤ d && d ≤ daysInMonth y m

def validTimeFields (h mi s : Int) : Bool :=
  0 ≤ h && h ≤ 23 && 0 ≤ mi && mi ≤ 59 && 0 ≤ s && s ≤ 59

def PyDate.valid (x : PyDate) : Bool := validDateFields x.year x.month x.day

def PyDatetime.valid (x : PyDatetime) : Bool :=
  validDateFields x.year x.month x.day && validTimeFields x.hour x.minute x.second

def PyTime.valid (x : PyTime) : Bool := validTimeFields x.hour x.minute x.second

/-- Days since 1970-01-01 of a Gregorian date (Howard Hinnant's
`days_from_civil`; Python's `date.toordinal` shifted to the Unix epoch). -/
def daysFromCivil (y m d : Int) : Int :=
  let y2 := if m ≤ 2 then y - 1 else y
  let era := Int.fdiv y2 400
  let yoe := y2 - era * 400
  let mp := if m > 2 then m - 3 else m + 9
  let doy := Int.fdiv (153 * mp + 2) 5 + d - 1
  let doe := yoe * 365 + Int.fdiv yoe 4 - Int.fdiv yoe 100 + doy
  era * 146097 + doe - 719468

/-- Gregorian date of a day count since 1970-01-01 (Hinnant's
`civil_from_days`, the inverse of `daysFromCivil`). -/
def civilFromDays (z0 : Int) : Int × Int × Int :=
  let z := z0 + 719468
  let era := Int.fdiv z 146097
  let doe := z - era * 146097
  let yoe := Int.fdiv (doe - Int.fdiv doe 1460 + Int.fdiv doe 36524 - Int.fdiv doe 146096) 365
  let y := yoe + era * 400
  let doy := doe - (365 * yoe + Int.fdiv yoe 4 - Int.fdiv yoe 100)
  let mp := Int.fdiv (5 * doy + 2) 153
  let d := doy - Int.fdiv (153 * mp + 2) 5 + 1
  let m := if mp < 10 then mp + 3 else mp - 9
  (if m ≤ 2 then y + 1 else y, m, d)

/-- Wall-clock seconds since the epoch of a moment's naive fields. -/
def PyDatetime.wallSecs (x : PyDatetime) : Int :=
  daysFromCivil x.year x.month x.day * 86400 + x.hour * 3600 + x.minute * 60 + x.second

/-! ### Model of the pytz zone database

`parser.py` (which re-exports `pytz` helpers) and the Olson database are
external to `src/`; the zones this development mentions are tabulated with
their standard UTC offsets.  `dst` marks zones pytz implements as
`DstTzInfo` (zones with historical transitions), as opposed to the static
`UTC` singleton.  DST transitions are not modelled: no theorem below ever
compares two moments carrying different zones, so only the same-zone
cancellation of the offset is relied on. -/

structure ZoneInfo where
  name : String
  offset : Int
  dst : Bool
deriving Repr, DecidableEq

def zoneTable : List ZoneInfo :=
  [⟨"UTC", 0, false⟩,
   ⟨"America/New_York", -18000, true⟩,
   ⟨"Europe/Vienna", 3600, true⟩]

/-- `pytz.timezone(name)`: exact-name lookup in the zone database; an
unknown name raises `UnknownTimeZoneError`, modelled as `none`. -/
def pytzTimezone (name : String) : Option ZoneInfo :=
  zoneTable.find? (fun z => z.name == name)

/-- `dt.utcoffset()` in seconds, for moments produced by this module (their
zone names come from the table). -/
def zoneOffset (name : String) : Int :=
  match pytzTimezone name with
  | some z => z.offset
  | none => 0

/-- Python `datetime.__eq__`: a naive and an aware moment are never equal;
two aware moments are equal iff they denote the same instant; two naive
moments iff their fields agree. -/
def pyDatetimeEq (a b : PyDatetime) : Bool :=
  match a.tz, b.tz with
  | none, none => a == b
  | some za, some zb => a.wallSecs - zoneOffset za == b.wallSecs - zoneOffset zb
  | _, _ => false

/-- Python `datetime.__gt__`; comparing a naive with an aware moment raises
`TypeError`.  (For naive moments Python compares fields lexicographically,
which for constructible moments coincides with wall-seconds order.) -/
def pyDatetimeGt (a b : PyDatetime) : Except PyErr Bool :=
  match a.tz, b.tz with
  | none, none => .ok (decide (a.wallSecs > b.wallSecs))
  | some za, some zb =>
      .ok (decide (a.wallSecs - zoneOffset za > b.wallSecs - zoneOffset zb))
  | _, _ => .error .typeError

/-- Python `datetime - datetime` in seconds; mixing naive and aware raises
`TypeError`. -/
def pyDatetimeSub (a b : PyDatetime) : Except PyErr Int :=
  match a.tz, b.tz with
  | none, none => .ok (a.wallSecs - b.wallSecs)
  | some za, some zb => .ok ((a.wallSecs - zoneOffset za) - (b.wallSecs - zoneOffset zb))
  | _, _ => .error .typeError

/-- Python `datetime + timedelta`: wall-clock arithmetic, tzinfo preserved.
(Python raises `OverflowError` outside years 1..9999; the model extends the
calendar instead, and no theorem leaves the valid range.) -/
def pyDatetimeAdd (a : PyDatetime) (td : Int) : PyDatetime :=
  let total := a.wallSecs + td
  let days := Int.fdiv total 86400
  let rem := Int.emod total 86400
  let c := civilFromDays days
  ⟨c.1, c.2.1, c.2.2, Int.fdiv rem 3600, Int.fdiv (Int.emod rem 3600) 60, Int.emod rem 60, a.tz⟩

def PyDate.days (x : PyDate) : Int := daysFromCivil x.year x.month x.day

/-- Python `date.__gt__` (for constructible dates, field order coincides
with day-count order). -/
def pyDateGt (a b : PyDate) : Bool := decide (a.days > b.days)

/-- Python `date + timedelta`: only whole days of the delta are applied
(`timedelta.days` is the floor of the delta in days). -/
def pyDateAdd (a : PyDate) (td : Int) : PyDate :=
  let c := civilFromDays (a.days + Int.fdiv td 86400)
  ⟨c.1, c.2.1, c.2.2⟩

/-- Python `date - date`, as a timedelta in seconds. -/
def pyDateSub (a b : PyDate) : Int := (a.days - b.days) * 86400

/-! ### `vDate`, `vDatetime`, `vTime` -/

/-- `vDate.from_ical`: fixed-width slices `[:4]`, `[4:6]`, `[6:8]` fed to
`int` and `date(...)`; everything after index 8 is ignored; any failure is
converted by the bare `except` into the single `ValueError`. -/
def vDate.from_ical (ical : PyStr) : Except PyErr PyDate :=
  let err := PyErr.valueError ("Wrong date format " ++ String.mk ical)
  match pyInt (pySlice ical 0 4), pyInt (pySlice ical 4 6), pyInt (pySlice ical 6 8) with
  | some y, some m, some d =>
      if validDateFields y m d then .ok ⟨y, m, d⟩ else .error err
  | _, _, _ => .error err

/-- `vDate._to_ical`: `"%04d%02d%02d"`. -/
def vDate.to_ical (v : PyDate) : PyStr :=
  pad 4 v.year ++ pad 2 v.month ++ pad 2 v.day

/-- The datetime core `"%04d%02d%02dT%02d%02d%02d"` of `vDatetime._to_ical`. -/
def dtCore (v : PyDatetime) : PyStr :=
  pad 4 v.year ++ pad 2 v.month ++ pad 2 v.day ++
    'T' :: (pad 2 v.hour ++ pad 2 v.minute ++ pad 2 v.second)

/-- `vDatetime._to_ical`: the core fields, suffixed with `Z` iff the
attached zone identifier (via the external `tzid_from_dt`, i.e. the moment's
zone name) lower-cases to `"utc"`. -/
def vDatetime.to_ical (v : PyDatetime) : PyStr :=
  dtCore v ++
    (match v.tz with
     | some tzid => if pyLower tzid.data = "utc".data then ['Z'] else []
     | none => [])

/-- `vDatetime.from_ical`: optional caller-supplied zone name looked up in
pytz (an unknown name is passed over, leaving `tzinfo = None`); fixed-width
slices (index 8, where `T` stands, is never examined); if a zone was
resolved the naive fields are localized into it and the tail of the text is
ignored; otherwise an empty tail gives a naive moment, a tail whose first
character is `Z` gives a UTC moment, and any other tail raises.  The bare
`except` funnels every failure into one `ValueError`. -/
def vDatetime.from_ical (ical : PyStr) (timezone : Option String) :
    Except PyErr PyDatetime :=
  let err := PyErr.valueError ("Wrong datetime format: " ++ String.mk ical)
  let tzinfo : Option ZoneInfo :=
    match timezone with
    | some name => pytzTimezone name
    | none => none
  match pyInt (pySlice ical 0 4), pyInt (pySlice ical 4 6), pyInt (pySlice ical 6 8),
        pyInt (pySlice ical 9 11), pyInt (pySlice ical 11 13), pyInt (pySlice ical 13 15) with
  | some y, some mo, some d, some h, some mi, some s =>
      if validDateFields y mo d && validTimeFields h mi s then
        match tzinfo with
        | some z => .ok ⟨y, mo, d, h, mi, s, some z.name⟩
        | none =>
            if ical.drop 15 = [] then .ok ⟨y, mo, d, h, mi, s, none⟩
            else if pySlice ical 15 16 = ['Z'] then .ok ⟨y, mo, d, h, mi, s, some "UTC"⟩
            else .error err
      else .error err
  | _, _, _, _, _, _ => .error err

/-- `vTime._to_ical`: `"%02d%02d%02d"` plus the same `Z` rule as datetimes. -/
def vTime.to_ical (v : PyTime) : PyStr :=
  pad 2 v.hour ++ pad 2 v.minute ++ pad 2 v.second ++
    (match v.tz with
     | some tzid => if pyLower tzid.data = "utc".data then ['Z'] else []
     | none => [])

/-- `vTime.from_ical`: the time analogue of `vDatetime.from_ical`.  When a
zone resolves to a pytz `DstTzInfo`, its `localize` performs datetime
arithmetic on the bare `time` and raises `TypeError`, which the bare
`except` converts into the codec's `ValueError`; the static UTC zone's
`localize` is `t.replace(tzinfo=self)` and succeeds. -/
def vTime.from_ical (ical : PyStr) (timezone : Option String) : Except PyErr PyTime :=
  let err := PyErr.valueError ("Expected time, got: " ++ String.mk ical)
  let tzinfo : Option ZoneInfo :=
    match timezone with
    | some name => pytzTimezone name
    | none => none
  match pyInt (pySlice ical 0 2), pyInt (pySlice ical 2 4), pyInt (pySlice ical 4 6) with
  | some h, some mi, some s =>
      if validTimeFields h mi s then
        match tzinfo with
        | some z =>
            if z.dst then .error err else .ok ⟨h, mi, s, some z.name⟩
        | none =>
            if ical.drop 6 = [] then .ok ⟨h, mi, s, none⟩
            else if pySlice ical 6 7 = ['Z'] then .ok ⟨h, mi, s, some "UTC"⟩
            else .error err
      else .error err
  | _, _, _ => .error err

/-! ### `vDuration` -/

def spanDigits (cs : PyStr) : PyStr × PyStr :=
  (cs.takeWhile Char.isDigit, cs.dropWhile Char.isDigit)

/-- One optional `(\d+)X` group of `DURATION_REGEX`: consumed only when the
digit run is nonempty and immediately followed by the group's letter.  The
letters of successive groups are pairwise distinct, so this deterministic
reading agrees with the regex's backtracking. -/
def tryUnit (letter : Char) (cs : PyStr) : Option Nat × PyStr :=
  match spanDigits cs with
  | ([], _) => (none, cs)
  | (ds, c :: rest2) => if c = letter then (parseNatDigits ds, rest2) else (none, cs)
  | (_, []) => (none, cs)

/-- The `(?:(\d+)D)?(?:T(?:(\d+)H)?(?:(\d+)M)?(?:(\d+)S)?)?$` alternative of
the duration grammar, in seconds. -/
def durDT (body : PyStr) : Option Int :=
  let (days, r0) := tryUnit 'D' body
  match r0 with
  | 'T' :: t =>
      let (h, r1) := tryUnit 'H' t
      let (m, r2) := tryUnit 'M' r1
      let (s, r3) := tryUnit 'S' r2
      if r3 = [] then
        some ((days.getD 0 : Int) * 86400 + (h.getD 0 : Int) * 3600 +
          (m.getD 0 : Int) * 60 + (s.getD 0 : Int))
      else none
  | [] => some ((days.getD 0 : Int) * 86400)
  | _ => none

/-- `vDuration.from_ical`: `re.match` of
`([-+]?)P(?:(\d+)W|(?:(\d+)D)?(?:T(?:(\d+)H)?(?:(\d+)M)?(?:(\d+)S)?)?)$`
(the `$` also accepts one trailing newline, which never arises here), then
`timedelta` construction, negated when the sign group is `-`. -/
def vDuration.from_ical (ical : PyStr) : Except PyErr Int :=
  let err := PyErr.valueError ("Invalid iCalendar duration: " ++ String.mk ical)
  let (neg, cs) :=
    match ical with
    | '-' :: t => (true, t)
    | '+' :: t => (false, t)
    | t => (false, t)
  let res : Option Int :=
    match cs with
    | 'P' :: body =>
        match spanDigits body with
        | (d :: ds, ['W']) => (parseNatDigits (d :: ds)).map (fun w => (w : Int) * 604800)
        | _ => durDT body
    | _ => none
  match res with
  | some v => .ok (if neg then -v else v)
  | none => .error err

/-- `vDuration._to_ical` on a timedelta (in seconds): sign from
`value.days < 0`, then `P[<days>D][T[<h>H][<m>M][<s>S]]`, with the day
segment dropped when the day count is zero and a time part exists. -/
def vDuration.to_ical (td : Int) : PyStr :=
  let negative := Int.fdiv td 86400 < 0
  let v := if negative then -td else td
  let sign : PyStr := if negative then ['-'] else []
  let vdays := Int.fdiv v 86400
  let vsecs := (Int.emod v 86400).toNat
  let hours := vsecs / 3600
  let minutes := vsecs % 3600 / 60
  let seconds := vsecs % 60
  let timepart : PyStr :=
    if vsecs ≠ 0 then
      'T' :: ((if hours ≠ 0 then natDigits hours ++ ['H'] else []) ++
        (if minutes ≠ 0 ∨ (hours ≠ 0 ∧ seconds ≠ 0) then natDigits minutes ++ ['M'] else []) ++
        (if seconds ≠ 0 then natDigits seconds ++ ['S'] else []))
    else []
  if vdays = 0 ∧ timepart ≠ [] then sign ++ 'P' :: timepart
  else sign ++ 'P' :: natDigits vdays.natAbs ++ 'D' :: timepart

/-! ### `vDDDTypesFactory`, the polymorphic temporal dispatcher -/

/-- The native temporal variants the factory dispatches over. -/
inductive DDDVal where
  | datetime (x : PyDatetime)
  | date (x : PyDate)
  | time (x : PyTime)
  | duration (x : Int)
deriving Repr, DecidableEq

/-- Encode-side dispatch: `vDDDTypesFactory(value)._to_ical()` (`datetime`
is checked before `date`, as a datetime is a date instance). -/
def vDDDTypesFactory.to_ical : DDDVal → PyStr
  | .datetime x => vDatetime.to_ical x
  | .date x => vDate.to_ical x
  | .time x => vTime.to_ical x
  | .duration x => vDuration.to_ical x

/-- Decode-side dispatch: texts upper-casing to a `P`/`-P` head go to the
duration codec; otherwise datetime, then date, then time are attempted, the
time codec being called without the timezone hint. -/
def vDDDTypesFactory.from_ical (ical : PyStr) (timezone : Option String) :
    Except PyErr DDDVal :=
  let u := pyUpper ical
  if ['-', 'P'].isPrefixOf u ∨ ['P'].isPrefixOf u then
    (vDuration.from_ical ical).map .duration
  else
    match vDatetime.from_ical ical timezone with
    | .ok v => .ok (.datetime v)
    | .error _ =>
        match vDate.from_ical ical with
        | .ok v => .ok (.date v)
        | .error _ => (vTime.from_ical ical none).map .time

/-! ### `vPeriod` -/

/-- A period's first component: `datetime` or `date` (anything else fails
the isinstance check with `ValueError`). -/
inductive PeriodStart where
  | date (x : PyDate)
  | datetime (x : PyDatetime)
deriving Repr, DecidableEq

/-- A period's second component: end moment or duration. -/
inductive PeriodEnd where
  | date (x : PyDate)
  | datetime (x : PyDatetime)
  | duration (x : Int)
deriving Repr, DecidableEq

/-- The state `vPeriod.__init__` stores on success. -/
structure PeriodState where
  startv : PeriodStart
  endv : PeriodStart
  by_duration : Bool
  duration : Int
deriving Repr, DecidableEq

/-- `vPeriod.__init__` after the isinstance checks: resolve
`(end, duration)` from the second component, then reject `start > end`.
`__init__` has no exception handler, so the `TypeError` Python raises when
subtracting or comparing a `date` with a `datetime`, or a naive with an
aware `datetime`, propagates. -/
def vPeriod.init (start : PeriodStart) (eod : PeriodEnd) : Except PyErr PeriodState := do
  let (by_duration, endv, duration) ←
    (match start, eod with
     | .date s, .duration t => .ok (true, PeriodStart.date (pyDateAdd s t), t)
     | .datetime s, .duration t => .ok (true, PeriodStart.datetime (pyDatetimeAdd s t), t)
     | .date s, .date e => .ok (false, PeriodStart.date e, pyDateSub e s)
     | .datetime s, .datetime e =>
         (pyDatetimeSub e s).map (fun d => (false, PeriodStart.datetime e, d))
     | _, _ => .error PyErr.typeError : Except PyErr (Bool × PeriodStart × Int))
  let gt ←
    (match start, endv with
     | .date s, .date e => .ok (pyDateGt s e)
     | .datetime s, .datetime e => pyDatetimeGt s e
     | _, _ => .error PyErr.typeError : Except PyErr Bool)
  if gt then .error (.valueError "Start time is greater than end time")
  else .ok ⟨start, endv, by_duration, duration⟩

/-- `vPeriod._to_ical`: start and (duration | end) joined by `/`, the
moments encoded by the datetime codec, a duration by the duration codec. -/
def vPeriod.to_ical (p : PeriodState) : PyStr :=
  let encStart : PeriodStart → PyStr
    | .date x => vDate.to_ical x
    | .datetime x => vDatetime.to_ical x
  if p.by_duration then encStart p.startv ++ '/' :: vDuration.to_ical p.duration
  else encStart p.startv ++ '/' :: encStart p.endv

/-- Python `s.split(sep)` for a one-character separator. -/
def pySplit (cs : PyStr) (sep : Char) : List PyStr := cs.splitOn sep

def toPeriodStart : DDDVal → Option PeriodStart
  | .date x => some (.date x)
  | .datetime x => some (.datetime x)
  | _ => none

def toPeriodEnd : DDDVal → Option PeriodEnd
  | .date x => some (.date x)
  | .datetime x => some (.datetime x)
  | .duration t => some (.duration t)
  | .time _ => none

/-- `vPeriod.from_ical`: split on `/` into exactly two halves, decode each
through the dispatcher, construct; the bare `except` funnels every failure
(including `TypeError` from mixed operands) into one `ValueError`. -/
def vPeriod.from_ical (ical : PyStr) : Except PyErr PeriodState :=
  let err := PyErr.valueError ("Expected period format, got: " ++ String.mk ical)
  match pySplit ical '/' with
  | [a, b] =>
      match vDDDTypesFactory.from_ical a none, vDDDTypesFactory.from_ical b none with
      | .ok av, .ok bv =>
          match toPeriodStart av, toPeriodEnd bv with
          | some s, some e =>
              match vPeriod.init s e with
              | .ok st => .ok st
              | .error _ => .error err
          | _, _ => .error err
      | _, _ => .error err
  | _ => .error err

/-! ### `vUTCOffset` -/

/-- `vUTCOffset.from_ical`: `ical[0:1]` is the sign slice (never validated),
`int(ical[1:3])`, `int(ical[3:5])` and `int(ical[5:7] or 0)` the hour,
minute, second groups; magnitudes of 24 hours and more are rejected after
the parse (outside the `try`), and the offset is negated iff the sign slice
is `-`. -/
def vUTCOffset.from_ical (ical : PyStr) : Except PyErr Int :=
  let err := PyErr.valueError ("Expected utc offset, got: " ++ String.mk ical)
  let g3 := if pySlice ical 5 7 = [] then some (0 : Int) else pyInt (pySlice ical 5 7)
  match pyInt (pySlice ical 1 3), pyInt (pySlice ical 3 5), g3 with
  | some h, some m, some s =>
      let offset := h * 3600 + m * 60 + s
      if offset ≥ 86400 then
        .error (.valueError ("Offset must be less than 24 hours, was " ++ String.mk ical))
      else if pySlice ical 0 1 = ['-'] then .ok (-offset)
      else .ok offset
  | _, _, _ => .error err

/-- `vUTCOffset._to_ical`: sign character, then `HHMM`, with a seconds
segment only when nonzero. -/
def vUTCOffset.to_ical (td : Int) : PyStr :=
  let (sign, v) := if td < 0 then (['-'], -td) else (['+'], td)
  let days := Int.fdiv v 86400
  let secs := Int.emod v 86400
  let hours := (days * 24 + Int.fdiv secs 3600).natAbs
  let minutes := (Int.fdiv (Int.emod secs 3600) 60).natAbs
  let seconds := (Int.emod secs 60).natAbs
  if seconds ≠ 0 then sign ++ padNum 2 hours ++ padNum 2 minutes ++ padNum 2 seconds
  else sign ++ padNum 2 hours ++ padNum 2 minutes

/-! ### `vBinary` and `base64.b64decode` -/

def b64CharVal (c : Char) : Option Nat :=
  if 'A' ≤ c ∧ c ≤ 'Z' then some (c.toNat - 65)
  else if 'a' ≤ c ∧ c ≤ 'z' then some (c.toNat - 97 + 26)
  else if '0' ≤ c ∧ c ≤ '9' then some (c.toNat - 48 + 52)
  else if c = '+' then some 62
  else if c = '/' then some 63
  else none

/-- Decode 6-bit groups into bytes: four characters to three bytes, with a
final group of two or three characters yielding one or two bytes (a final
single character is rejected before this point). -/
def b64Groups : List Nat → List Nat
  | a :: b :: c :: d :: rest =>
      let v := ((a * 64 + b) * 64 + c) * 64 + d
      (v / 65536) :: (v / 256 % 256) :: (v % 256) :: b64Groups rest
  | [a, b] => [a * 4 + b / 16]
  | [a, b, c] => [a * 4 + b / 16, b % 16 * 16 + c / 4]
  | _ => []

/-- `base64.b64decode` with its default `validate=False`: characters outside
the base64 alphabet (other than the pad `=`) are discarded before decoding;
a data-character count of 1 mod 4 and a kept length not a multiple of 4 are
the two `binascii.Error`s (a `ValueError` subclass; the interpolated
character count of the first message is elided here, and pad placement
inside the kept text is not position-checked, matching the non-strict
`binascii` reader on every input this development uses). -/
def b64decode (s : PyStr) : Except String (List Nat) :=
  let kept := s.filter (fun c => (b64CharVal c).isSome || c = '=')
  let data := kept.filter (fun c => c ≠ '=')
  if data.length % 4 = 1 then
    .error "Invalid base64-encoded string: number of data characters cannot be 1 more than a multiple of 4"
  else if kept.length % 4 ≠ 0 then .error "Incorrect padding"
  else .ok (b64Groups (data.filterMap b64CharVal))

/-- `vBinary.from_ical`: `base64.b64decode` guarded by `except
UnicodeError`.  `b64decode` raises `binascii.Error` (a `ValueError`), never
`UnicodeError`, so the handler that would produce the codec's own
`'Not valid base 64 encoding.'` message is unreachable and the library error
propagates unchanged. -/
def vBinary.from_ical (ical : PyStr) : Except PyErr (List Nat) :=
  match b64decode ical with
  | .ok bs => .ok bs
  | .error msg => .error (.valueError msg)

/-! ### `vCalAddress` -/

/-- `needle in hay` for Python strings. -/
def hasSubstr (hay needle : PyStr) : Bool :=
  match hay with
  | [] => needle.isEmpty
  | _ :: t => needle.isPrefixOf hay || hasSubstr t needle

/-- `re.match(r"[^@]+@[^@]+\.[^@]+", s)` as a Boolean.  The leading `[^@]+`
forces the matched `@` to be the first `@` of the string with at least one
character before it; after it, a `.` must occur before the next `@` (if
any), neither first nor last among those characters, so that the middle and
trailing `[^@]+` can take one character each. -/
def reMatchMailAddr (s : PyStr) : Bool :=
  let lpart := s.takeWhile (fun c => c ≠ '@')
  match s.dropWhile (fun c => c ≠ '@') with
  | '@' :: after =>
      let u := after.takeWhile (fun c => c ≠ '@')
      !lpart.isEmpty && ((u.drop 1).dropLast).contains '.'
  | _ => false

def mailtoChars : PyStr := ['m', 'a', 'i', 'l', 't', 'o', ':']

/-- `vCalAddress.__init__`: prefix `mailto:` iff the lower-cased text does
not CONTAIN `mailto:` and the text matches the minimal address pattern. -/
def vCalAddress.value (s : PyStr) : PyStr :=
  if !hasSubstr (pyLower s) mailtoChars && reMatchMailAddr s then mailtoChars ++ s
  else s

/-! ### `vBoolean`, `vInt`, `vText` and friends -/

/-- `vBoolean.from_ical`: the caseless `BOOL_MAP` admits exactly
`TRUE`/`FALSE`. -/
def vBoolean.from_ical (ical : PyStr) : Except PyErr Bool :=
  if pyUpper ical = "TRUE".data then .ok true
  else if pyUpper ical = "FALSE".data then .ok false
  else .error (.valueError ("Expected 'TRUE' or 'FALSE'. Got " ++ String.mk ical))

def vBoolean.to_ical (b : Bool) : PyStr := if b then "TRUE".data else "FALSE".data

/-- `vInt.from_ical`: `int(ical)` or `ValueError`. -/
def vInt.from_ical (ical : PyStr) : Except PyErr Int :=
  match pyInt ical with
  | some n => .ok n
  | none => .error (.valueError ("Expected int, got: " ++ String.mk ical))

def vInt.to_ical (n : Int) : PyStr := intDigits n

/-- Modelled from the spec: `icalendar.parser.escape_char` (file `parser.py`
is absent from `src/`), the external primitive escaping the RFC 5545
special characters in free text. -/
def escape_char (s : PyStr) : PyStr :=
  (s.map (fun c =>
    if c = '\\' then ['\\', '\\']
    else if c = ';' then ['\\', ';']
    else if c = ',' then ['\\', ',']
    else if c = '\n' then ['\\', 'n']
    else [c])).flatten

/-- Modelled from the spec: `icalendar.parser.unescape_char` (file
`parser.py` is absent from `src/`), the inverse external primitive. -/
def unescape_char : PyStr → PyStr
  | '\\' :: '\\' :: t => '\\' :: unescape_char t
  | '\\' :: ';' :: t => ';' :: unescape_char t
  | '\\' :: ',' :: t => ',' :: unescape_char t
  | '\\' :: 'n' :: t => '\n' :: unescape_char t
  | '\\' :: 'N' :: t => '\n' :: unescape_char t
  | c :: t => c :: unescape_char t
  | [] => []

def vText.from_ical (ical : PyStr) : PyStr := unescape_char ical

def vText.to_ical (s : PyStr) : PyStr := escape_char s

/-! ### `vWeekday` and `vFrequency` -/

def isWordChar (c : Char) : Bool := c.isAlpha || c.isDigit || c = '_'

/-- `WEEKDAY_RULE` = `(?P<signal>[+-]?)(?P<relative>[\d]?)(?P<weekday>[\w]{2})$`
under `re.match`: after the optional sign the rest is either exactly two
word characters, or one digit followed by exactly two word characters.
(A sign character is not a word character and the group letters cannot
overlap, so this case split agrees with the regex's backtracking.)
Returns (signal, relative, weekday). -/
def weekdayRule (s : PyStr) : Option (PyStr × PyStr × PyStr) :=
  let (sg, r) :=
    match s with
    | '+' :: t => ((['+'] : PyStr), t)
    | '-' :: t => ((['-'] : PyStr), t)
    | t => (([] : PyStr), t)
  match r with
  | [a, b] => if isWordChar a && isWordChar b then some (sg, [], [a, b]) else none
  | [a, b, c] =>
      if a.isDigit && isWordChar b && isWordChar c then some (sg, [a], [b, c]) else none
  | _ => none

def weekDayCodes : List PyStr :=
  ["SU".data, "MO".data, "TU".data, "WE".data, "TH".data, "FR".data, "SA".data]

/-- The decoded state of a `vWeekday`: `relative` is
`relative and int(relative) or None` (so a `0` ordinal also becomes none),
`value` the accepted text. -/
structure WeekdayVal where
  relative : Option Nat
  value : PyStr
deriving Repr, DecidableEq

/-- `vWeekday.__init__`: match the rule, then require the weekday code to be
in the caseless table (the `sign not in '+-'` guard never fires: the regex
only yields `''`, `'+'` or `'-'`, and the empty string is a substring of
`'+-'`). -/
def vWeekday.init (value : PyStr) : Except PyErr WeekdayVal :=
  let err := PyErr.valueError ("Expected weekday abbrevation, got: " ++ String.mk value)
  match weekdayRule value with
  | none => .error err
  | some (_, rel, wd) =>
      if weekDayCodes.contains (pyUpper wd) then
        .ok ⟨match parseNatDigits rel with
             | some 0 => none
             | some n => some n
             | none => none, value⟩
      else .error err

/-- `vWeekday.from_ical`: construct from the upper-cased text; failures are
re-raised with the original text in the message. -/
def vWeekday.from_ical (ical : PyStr) : Except PyErr WeekdayVal :=
  match vWeekday.init (pyUpper ical) with
  | .ok w => .ok w
  | .error _ =>
      .error (.valueError ("Expected weekday abbrevation, got: " ++ String.mk ical))

def vWeekday.to_ical (w : WeekdayVal) : PyStr := pyUpper w.value

def frequencyCodes : List PyStr :=
  ["SECONDLY".data, "MINUTELY".data, "HOURLY".data, "DAILY".data,
   "WEEKLY".data, "MONTHLY".data, "YEARLY".data]

/-- `vFrequency.__init__`: membership in the caseless frequency table. -/
def vFrequency.init (value : PyStr) : Except PyErr PyStr :=
  if frequencyCodes.contains (pyUpper value) then .ok value
  else .error (.valueError ("Expected frequency, got: " ++ String.mk value))

def vFrequency.from_ical (ical : PyStr) : Except PyErr PyStr :=
  match vFrequency.init (pyUpper ical) with
  | .ok v => .ok v
  | .error _ => .error (.valueError ("Expected frequency, got: " ++ String.mk ical))

def vFrequency.to_ical (v : PyStr) : PyStr := pyUpper v

/-! ### `vRecur` -/

/-- The native forms a decoded rule-part value can take: integers, strings
(weekday/frequency/text values) and dispatcher results (for `UNTIL`). -/
inductive RecurVal where
  | int (n : Int)
  | str (s : PyStr)
  | ddd (x : DDDVal)
deriving Repr, DecidableEq

/-- A recurrence rule: rule-part name (stored upper-cased, as the caseless
dict normalises) to list of values, in insertion order. -/
abbrev RecurMap := List (PyStr × List RecurVal)

/-- The per-key sub-codec selectors of `vRecur.types`. -/
inductive RecurCodec where
  | int | ddd | weekday | freq | text
deriving Repr, DecidableEq

/-- `vRecur.types`: the caseless key-to-codec table.  Note `BYWEEKNO` is
absent, although it appears in `canonical_order`. -/
def recurTypes : List (PyStr × RecurCodec) :=
  [("COUNT".data, .int), ("INTERVAL".data, .int), ("BYSECOND".data, .int),
   ("BYMINUTE".data, .int), ("BYHOUR".data, .int), ("BYMONTHDAY".data, .int),
   ("BYYEARDAY".data, .int), ("BYMONTH".data, .int), ("UNTIL".data, .ddd),
   ("BYSETPOS".data, .int), ("WKST".data, .weekday), ("BYDAY".data, .weekday),
   ("FREQ".data, .freq)]

/-- Modelled from the spec: `CaselessDict.get` (file `caselessdict.py` is
absent from `src/`), the required case-insensitive mapping capability —
lookup by upper-normalised key in a table whose stored keys are already
normalised. -/
def caselessGet (table : List (PyStr × α)) (key : PyStr) : Option α :=
  (table.find? (fun p => p.1 = pyUpper key)).map (fun p => p.2)

/-- `vRecur.canonical_order`. -/
def canonicalOrder : List PyStr :=
  ["FREQ".data, "UNTIL".data, "COUNT".data, "INTERVAL".data, "BYSECOND".data,
   "BYMINUTE".data, "BYHOUR".data, "BYDAY".data, "BYMONTHDAY".data,
   "BYYEARDAY".data, "BYWEEKNO".data, "BYMONTH".data, "BYSETPOS".data,
   "WKST".data]

/-- Decoding one sub-token with a rule-part's codec (`parser.from_ical(v).value`). -/
def recurDecodeOne : RecurCodec → PyStr → Except PyErr RecurVal
  | .int, v => (vInt.from_ical v).map .int
  | .ddd, v => (vDDDTypesFactory.from_ical v none).map .ddd
  | .weekday, v => (vWeekday.from_ical v).map (fun w => .str w.value)
  | .freq, v => (vFrequency.from_ical v).map .str
  | .text, v => .ok (.str (unescape_char v))

/-- `vRecur.parse_type`: codec for the key (defaulting to the text codec),
applied to each comma-separated sub-token. -/
def vRecur.parse_type (key vals : PyStr) : Except PyErr (List RecurVal) :=
  ((pySplit vals ',').mapM (recurDecodeOne ((caselessGet recurTypes key).getD .text)))

/-- Modelled from the spec: `CaselessDict.__setitem__` (file
`caselessdict.py` is absent from `src/`) on the rule map — upper-case the
key, replace an existing entry in place (order-preserving), else append. -/
def recurSet (m : RecurMap) (key : PyStr) (vs : List RecurVal) : RecurMap :=
  let k := pyUpper key
  if m.any (fun p => p.1 = k) then m.map (fun p => if p.1 = k then (k, vs) else p)
  else m ++ [(k, vs)]

/-- `vRecur.from_ical`: split on `;`, each pair on `=` (exactly one `=`),
parse the values, store under the normalised key; any failure becomes the
single rule error. -/
def vRecur.from_ical (ical : PyStr) : Except PyErr RecurMap :=
  let step : RecurMap → PyStr → Except PyErr RecurMap := fun acc pair =>
    match pySplit pair '=' with
    | [key, vals] => (vRecur.parse_type key vals).map (recurSet acc key)
    | _ => .error .typeError
  match (pySplit ical ';').foldlM step [] with
  | .ok r => .ok r
  | .error _ => .error (.valueError ("Error in recurrence rule: " ++ String.mk ical))

/-- Insertion sort by Python string order, used for keys outside the
canonical list. -/
def insertSorted (x : PyStr × List RecurVal) : RecurMap → RecurMap
  | [] => [x]
  | y :: t => if String.mk x.1 ≤ String.mk y.1 then x :: y :: t else y :: insertSorted x t

/-- Modelled from the spec: `CaselessDict.sorted_items` (file
`caselessdict.py` is absent from `src/`) iterates the items whose keys are
in the fixed canonical order first, in that order, filtered to the keys
actually present; keys outside the canonical list follow, sorted by name
(no claim exercises such keys). -/
def vRecur.sorted_items (m : RecurMap) : RecurMap :=
  canonicalOrder.filterMap (fun k => m.find? (fun p => p.1 = k)) ++
    (m.filter (fun p => !canonicalOrder.contains p.1)).foldr insertSorted []

/-- Re-encoding one rule-part value with its key's codec: `typ(val)._to_ical()`.
The codec constructors validate (`int` parses strings and rejects temporals
with `TypeError`; the weekday and frequency constructors re-check their
grammars; `vDDDTypesFactory` rejects non-temporal natives). -/
def recurEncodeOne : RecurCodec → RecurVal → Except PyErr PyStr
  | .int, .int n => .ok (intDigits n)
  | .int, .str s =>
      match pyInt s with
      | some n => .ok (intDigits n)
      | none => .error (.valueError "invalid literal for int()")
  | .int, .ddd _ => .error .typeError
  | .ddd, .ddd x => .ok (vDDDTypesFactory.to_ical x)
  | .ddd, _ => .error (.valueError "You must use datetime, date, timedelta or time")
  | .weekday, .str s => (vWeekday.init s).map vWeekday.to_ical
  | .weekday, _ => .error .typeError
  | .freq, .str s => (vFrequency.init s).map vFrequency.to_ical
  | .freq, _ => .error .typeError
  | .text, .str s => .ok (escape_char s)
  | .text, _ => .error .typeError

/-- `vRecur._to_ical`: iterate `sorted_items`; for each key fetch the codec
with `self.types[key]` — a `KeyError` (e.g. for `BYWEEKNO`) propagates, as
`to_ical` has no handler — encode each value, join values with `,` and
groups with `;`. -/
def vRecur.encodeItem (p : PyStr × List RecurVal) : Except PyErr PyStr :=
  match caselessGet recurTypes p.1 with
  | none => .error (PyErr.keyError (String.mk p.1))
  | some codec =>
      (p.2.mapM (recurEncodeOne codec)).map
        (fun parts => p.1 ++ '=' :: List.intercalate [','] parts)

def vRecur.to_ical (m : RecurMap) : Except PyErr PyStr :=
  ((vRecur.sorted_items m).mapM vRecur.encodeItem).map (List.intercalate [';'])

/-! ### `vGeo`, `vDDDLists` -/

/-- Model of Python `float(text)` at the precision this module needs:
decimal literals parsed exactly into `Rat`.  (IEEE-754 rounding, `inf`,
`nan`, exponent and underscore forms are not modelled; no theorem below
depends on a parsed float's value.) -/
def pyFloat (cs0 : PyStr) : Option Rat :=
  let (neg, cs) :=
    match cs0 with
    | '-' :: t => (true, t)
    | '+' :: t => (false, t)
    | t => (false, t)
  let (ip, r) := spanDigits cs
  let val : Option Rat :=
    match r with
    | [] => (parseNatDigits ip).map (fun n => (n : Rat))
    | '.' :: fr =>
        let (fp, r2) := spanDigits fr
        if r2 = [] ∧ (ip ≠ [] ∨ fp ≠ []) then
          some ((ip.foldl (fun a c => 10 * a + digitVal c) 0 : Rat) +
            (fp.foldl (fun a c => 10 * a + digitVal c) 0 : Rat) / (10 : Rat) ^ fp.length)
        else none
    | _ => none
  val.map (fun q => if neg then -q else q)

/-- `vGeo.from_ical`: split on `;` into exactly two floats. -/
def vGeo.from_ical (ical : PyStr) : Except PyErr (Rat × Rat) :=
  let err := PyErr.valueError ("Expected 'float;float' , got: " ++ String.mk ical)
  match pySplit ical ';' with
  | [a, b] =>
      match pyFloat a, pyFloat b with
      | some la, some lo => .ok (la, lo)
      | _, _ => .error err
  | _ => .error err

/-- `vDDDLists.from_ical`: split on `,`, decode each through the dispatcher
with the shared timezone hint, collect the `.value`s. -/
def vDDDLists.from_ical (ical : PyStr) (timezone : Option String) :
    Except PyErr (List DDDVal) :=
  (pySplit ical ',').mapM (fun seg => vDDDTypesFactory.from_ical seg timezone)

/-! ### `TypesFactory` -/

/-- The codec classes registered in the factory (`vDDDTypesFactory` backs
the `date`, `date-time`, `duration` and `time` keys). -/
inductive TypeTag where
  | binary | boolean | calAddress | ddd | float | integer | period
  | recur | text | uri | utcOffset | geo | inline | dddLists
deriving Repr, DecidableEq

/-- The factory's own key-to-class entries (a `CaselessDict`). -/
def factoryTable : List (PyStr × TypeTag) :=
  [("BINARY".data, .binary), ("BOOLEAN".data, .boolean),
   ("CAL-ADDRESS".data, .calAddress), ("DATE".data, .ddd),
   ("DATE-TIME".data, .ddd), ("DURATION".data, .ddd), ("FLOAT".data, .float),
   ("INTEGER".data, .integer), ("PERIOD".data, .period), ("RECUR".data, .recur),
   ("TEXT".data, .text), ("TIME".data, .ddd), ("URI".data, .uri),
   ("UTC-OFFSET".data, .utcOffset), ("GEO".data, .geo), ("INLINE".data, .inline),
   ("DATE-TIME-LIST".data, .dddLists)]

/-- `TypesFactory.types_map`: property/parameter name to value-type key
(a `CaselessDict`; keys stored normalised). -/
def typesMap : List (PyStr × PyStr) :=
  [("CALSCALE".data, "text".data), ("METHOD".data, "text".data),
   ("PRODID".data, "text".data), ("VERSION".data, "text".data),
   ("ATTACH".data, "uri".data), ("CATEGORIES".data, "text".data),
   ("CLASS".data, "text".data), ("COMMENT".data, "text".data),
   ("DESCRIPTION".data, "text".data), ("GEO".data, "geo".data),
   ("LOCATION".data, "text".data), ("PERCENT-COMPLETE".data, "integer".data),
   ("PRIORITY".data, "integer".data), ("RESOURCES".data, "text".data),
   ("STATUS".data, "text".data), ("SUMMARY".data, "text".data),
   ("COMPLETED".data, "date-time".data), ("DTEND".data, "date-time".data),
   ("DUE".data, "date-time".data), ("DTSTART".data, "date-time".data),
   ("DURATION".data, "duration".data), ("FREEBUSY".data, "period".data),
   ("TRANSP".data, "text".data), ("TZID".data, "text".data),
   ("TZNAME".data, "text".data), ("TZOFFSETFROM".data, "utc-offset".data),
   ("TZOFFSETTO".data, "utc-offset".data), ("TZURL".data, "uri".data),
   ("ATTENDEE".data, "cal-address".data), ("CONTACT".data, "text".data),
   ("ORGANIZER".data, "cal-address".data), ("RECURRENCE-ID".data, "date-time".data),
   ("RELATED-TO".data, "text".data), ("URL".data, "uri".data),
   ("UID".data, "text".data), ("EXDATE".data, "date-time-list".data),
   ("EXRULE".data, "recur".data), ("RDATE".data, "date-time-list".data),
   ("RRULE".data, "recur".data), ("ACTION".data, "text".data),
   ("REPEAT".data, "integer".data), ("TRIGGER".data, "duration".data),
   ("CREATED".data, "date-time".data), ("DTSTAMP".data, "date-time".data),
   ("LAST-MODIFIED".data, "date-time".data), ("SEQUENCE".data, "integer".data),
   ("REQUEST-STATUS".data, "text".data), ("ALTREP".data, "uri".data),
   ("CN".data, "text".data), ("CUTYPE".data, "text".data),
   ("DELEGATED-FROM".data, "cal-address".data),
   ("DELEGATED-TO".data, "cal-address".data), ("DIR".data, "uri".data),
   ("ENCODING".data, "text".data), ("FMTTYPE".data, "text".data),
   ("FBTYPE".data, "text".data), ("LANGUAGE".data, "text".data),
   ("MEMBER".data, "cal-address".data), ("PARTSTAT".data, "text".data),
   ("RANGE".data, "text".data), ("RELATED".data, "text".data),
   ("RELTYPE".data, "text".data), ("ROLE".data, "text".data),
   ("RSVP".data, "boolean".data), ("SENT-BY".data, "cal-address".data),
   ("VALUE".data, "text".data)]

/-- `TypesFactory.for_property`: `self[self.types_map.get(name, 'text')]`
(both lookups caseless).  The outer lookup cannot actually fail — see
`forProperty_isSome`. -/
def TypesFactory.for_property (name : PyStr) : Option TypeTag :=
  caselessGet factoryTable ((caselessGet typesMap name).getD "text".data)

/-- The decoded native forms the registry can return. -/
inductive PyVal where
  | bytes (bs : List Nat)
  | bool (b : Bool)
  | str (s : PyStr)
  | int (n : Int)
  | rat (q : Rat)
  | timedelta (t : Int)
  | ddd (x : DDDVal)
  | period (p : PeriodState)
  | recur (m : RecurMap)
  | geo (lat lon : Rat)
  | weekday (w : WeekdayVal)
  | dddList (xs : List DDDVal)
deriving Repr, DecidableEq

/-- `type_class.from_ical(value)` for each registered class (temporal
decodes are called without a timezone hint on this path). -/
def codecDecode : TypeTag → PyStr → Except PyErr PyVal
  | .binary, s => (vBinary.from_ical s).map .bytes
  | .boolean, s => (vBoolean.from_ical s).map .bool
  | .calAddress, s => .ok (.str (vCalAddress.value s))
  | .ddd, s => (vDDDTypesFactory.from_ical s none).map .ddd
  | .float, s =>
      match pyFloat s with
      | some q => .ok (.rat q)
      | none => .error (.valueError ("Expected float value, got: " ++ String.mk s))
  | .integer, s => (vInt.from_ical s).map .int
  | .period, s => (vPeriod.from_ical s).map .period
  | .recur, s => (vRecur.from_ical s).map .recur
  | .text, s => .ok (.str (unescape_char s))
  | .uri, s => .ok (.str s)
  | .utcOffset, s => (vUTCOffset.from_ical s).map .timedelta
  | .geo, s => (vGeo.from_ical s).map (fun p => .geo p.1 p.2)
  | .inline, s => .ok (.str s)
  | .dddLists, s => (vDDDLists.from_ical s none).map .dddList

/-- `TypesFactory.from_ical`: decode a named value with the codec selected
for the name. -/
def TypesFactory.from_ical (name : PyStr) (value : PyStr) : Except PyErr PyVal :=
  match TypesFactory.for_property name with
  | some tag => codecDecode tag value
  | none => .error (.keyError (String.mk name))

/-! ## Proof infrastructure -/

theorem charToNat_ofNat (n : Nat) (h : n.isValidChar) : (Char.ofNat n).toNat = n := by
  simp [Char.ofNat, h, Char.ofNatAux, Char.toNat, UInt32.toNat, BitVec.toNat_ofNatLt]

theorem charLe_toNat {a b : Char} (h : a ≤ b) : a.toNat ≤ b.toNat := by
  rw [Char.le_def] at h; exact h

theorem charLe_ofNat {a b : Char} (h : a.toNat ≤ b.toNat) : a ≤ b := by
  rw [Char.le_def]; exact h

theorem pyUpperChar_idem (c : Char) : pyUpperChar (pyUpperChar c) = pyUpperChar c := by
  unfold pyUpperChar
  by_cases h : 'a' ≤ c ∧ c ≤ 'z'
  · rw [if_pos h]
    have h1 : 97 ≤ c.toNat := charLe_toNat h.1
    have h2 : c.toNat ≤ 122 := charLe_toNat h.2
    have hv : (c.toNat - 32).isValidChar := Or.inl (by omega)
    have ht : (Char.ofNat (c.toNat - 32)).toNat = c.toNat - 32 := charToNat_ofNat _ hv
    rw [if_neg]
    intro hcon
    have hle := charLe_toNat hcon.1
    have h97 : Char.toNat 'a' = 97 := rfl
    rw [ht, h97] at hle
    omega
  · rw [if_neg h, if_neg h]

theorem pyUpper_idem (cs : PyStr) : pyUpper (pyUpper cs) = pyUpper cs := by
  simp only [pyUpper, List.map_map]
  exact List.map_congr_left (fun c _ => pyUpperChar_idem c)

theorem caselessGet_pyUpper {α : Type} (t : List (PyStr × α)) (key : PyStr) :
    caselessGet t (pyUpper key) = caselessGet t key := by
  simp [caselessGet, pyUpper_idem]

/-- Slice extraction: the slice at a prefix `a` of width `|b|` is `b`. -/
theorem slice_at {a b : PyStr} (rest : PyStr) (i w : Nat)
    (ha : a.length = i) (hb : b.length = w) :
    pySlice (a ++ (b ++ rest)) i (i + w) = b := by
  subst ha; subst hb
  rw [pySlice, List.drop_left, Nat.add_sub_cancel_left, List.take_left]

theorem slice_first {b : PyStr} (rest : PyStr) {w : Nat} (hb : b.length = w) :
    pySlice (b ++ rest) 0 w = b := by
  subst hb
  rw [pySlice, List.drop_zero, Nat.sub_zero, List.take_left]

theorem drop_at {a : PyStr} (rest : PyStr) {i : Nat} (ha : a.length = i) :
    (a ++ rest).drop i = rest := by
  subst ha; exact List.drop_left a rest

theorem pad_length (w : Nat) (n : Int) (hw : 1 ≤ w) (h : n.toNat < 10 ^ w) :
    (pad w n).length = w := padNum_length w _ hw h

/-- The six field slices and the tail of a well-formed datetime core with an
arbitrary tail appended. -/
theorem dtSlices (p1 p2 p3 p4 p5 p6 suf : PyStr)
    (h1 : p1.length = 4) (h2 : p2.length = 2) (h3 : p3.length = 2)
    (h4 : p4.length = 2) (h5 : p5.length = 2) (h6 : p6.length = 2) :
    pySlice (p1 ++ (p2 ++ (p3 ++ ('T' :: (p4 ++ (p5 ++ (p6 ++ suf))))))) 0 4 = p1 ∧
    pySlice (p1 ++ (p2 ++ (p3 ++ ('T' :: (p4 ++ (p5 ++ (p6 ++ suf))))))) 4 6 = p2 ∧
    pySlice (p1 ++ (p2 ++ (p3 ++ ('T' :: (p4 ++ (p5 ++ (p6 ++ suf))))))) 6 8 = p3 ∧
    pySlice (p1 ++ (p2 ++ (p3 ++ ('T' :: (p4 ++ (p5 ++ (p6 ++ suf))))))) 9 11 = p4 ∧
    pySlice (p1 ++ (p2 ++ (p3 ++ ('T' :: (p4 ++ (p5 ++ (p6 ++ suf))))))) 11 13 = p5 ∧
    pySlice (p1 ++ (p2 ++ (p3 ++ ('T' :: (p4 ++ (p5 ++ (p6 ++ suf))))))) 13 15 = p6 ∧
    (p1 ++ (p2 ++ (p3 ++ ('T' :: (p4 ++ (p5 ++ (p6 ++ suf))))))).drop 15 = suf := by
  have e1 : p1 ++ (p2 ++ (p3 ++ ('T' :: (p4 ++ (p5 ++ (p6 ++ suf))))))
      = p1 ++ (p2 ++ (p3 ++ (['T'] ++ (p4 ++ (p5 ++ (p6 ++ suf)))))) := by simp
  refine ⟨slice_first _ h1, ?_, ?_, ?_, ?_, ?_, ?_⟩
  · exact slice_at _ 4 2 h1 h2
  · rw [e1, show p1 ++ (p2 ++ (p3 ++ (['T'] ++ (p4 ++ (p5 ++ (p6 ++ suf))))))
        = (p1 ++ p2) ++ (p3 ++ (['T'] ++ (p4 ++ (p5 ++ (p6 ++ suf))))) by simp]
    exact slice_at _ 6 2 (by simp [h1, h2]) h3
  · rw [e1, show p1 ++ (p2 ++ (p3 ++ (['T'] ++ (p4 ++ (p5 ++ (p6 ++ suf))))))
        = (p1 ++ p2 ++ p3 ++ ['T']) ++ (p4 ++ (p5 ++ (p6 ++ suf))) by simp]
    exact slice_at _ 9 2 (by simp [h1, h2, h3]) h4
  · rw [e1, show p1 ++ (p2 ++ (p3 ++ (['T'] ++ (p4 ++ (p5 ++ (p6 ++ suf))))))
        = (p1 ++ p2 ++ p3 ++ ['T'] ++ p4) ++ (p5 ++ (p6 ++ suf)) by simp]
    exact slice_at _ 11 2 (by simp [h1, h2, h3, h4]) h5
  · rw [e1, show p1 ++ (p2 ++ (p3 ++ (['T'] ++ (p4 ++ (p5 ++ (p6 ++ suf))))))
        = (p1 ++ p2 ++ p3 ++ ['T'] ++ p4 ++ p5) ++ (p6 ++ suf) by simp]
    exact slice_at _ 13 2 (by simp [h1, h2, h3, h4, h5]) h6
  · rw [e1, show p1 ++ (p2 ++ (p3 ++ (['T'] ++ (p4 ++ (p5 ++ (p6 ++ suf))))))
        = (p1 ++ p2 ++ p3 ++ ['T'] ++ p4 ++ p5 ++ p6) ++ suf by simp]
    exact drop_at _ (by simp [h1, h2, h3, h4, h5, h6])

theorem valid_bounds (v : PyDatetime) (hv : v.valid = true) :
    (1 ≤ v.year ∧ v.year ≤ 9999) ∧ (1 ≤ v.month ∧ v.month ≤ 12) ∧
    (1 ≤ v.day ∧ v.day ≤ daysInMonth v.year v.month) ∧
    (0 ≤ v.hour ∧ v.hour ≤ 23) ∧ (0 ≤ v.minute ∧ v.minute ≤ 59) ∧
    (0 ≤ v.second ∧ v.second ≤ 59) := by
  simp only [PyDatetime.valid, validDateFields, validTimeFields, Bool.and_eq_true,
    decide_eq_true_eq] at hv
  refine ⟨⟨?_, ?_⟩, ⟨?_, ?_⟩, ⟨?_, ?_⟩, ⟨?_, ?_⟩, ⟨?_, ?_⟩, ⟨?_, ?_⟩⟩ <;> tauto

theorem daysInMonth_le (y m : Int) : daysInMonth y m ≤ 31 := by
  unfold daysInMonth
  split
  · split <;> omega
  · split <;> omega

/-- How `vDatetime.from_ical` behaves on a rendered core with an arbitrary
tail: the fields always parse back, so the result is decided entirely by the
timezone hint and the tail. -/
theorem vDatetime_from_ical_render (v : PyDatetime) (hv : v.valid = true)
    (suf : PyStr) (tz : Option String) :
    vDatetime.from_ical (dtCore v ++ suf) tz =
      match (match tz with | some n => pytzTimezone n | none => none) with
      | some z => .ok ⟨v.year, v.month, v.day, v.hour, v.minute, v.second, some z.name⟩
      | none =>
          if suf = [] then
            .ok ⟨v.year, v.month, v.day, v.hour, v.minute, v.second, none⟩
          else if suf.take 1 = ['Z'] then
            .ok ⟨v.year, v.month, v.day, v.hour, v.minute, v.second, some "UTC"⟩
          else
            .error (.valueError ("Wrong datetime format: " ++ String.mk (dtCore v ++ suf))) := by
  obtain ⟨hy, hmo, hd, hh, hmi, hs⟩ := valid_bounds v hv
  have hd31 : v.day ≤ 31 := le_trans hd.2 (daysInMonth_le v.year v.month)
  have l1 : (pad 4 v.year).length = 4 := pad_length 4 _ (by norm_num) (by omega)
  have l2 : (pad 2 v.month).length = 2 := pad_length 2 _ (by norm_num) (by omega)
  have l3 : (pad 2 v.day).length = 2 := pad_length 2 _ (by norm_num) (by omega)
  have l4 : (pad 2 v.hour).length = 2 := pad_length 2 _ (by norm_num) (by omega)
  have l5 : (pad 2 v.minute).length = 2 := pad_length 2 _ (by norm_num) (by omega)
  have l6 : (pad 2 v.second).length = 2 := pad_length 2 _ (by norm_num) (by omega)
  have he : dtCore v ++ suf = pad 4 v.year ++ (pad 2 v.month ++ (pad 2 v.day ++
      ('T' :: (pad 2 v.hour ++ (pad 2 v.minute ++ (pad 2 v.second ++ suf)))))) := by
    simp [dtCore]
  obtain ⟨s1, s2, s3, s4, s5, s6, s7⟩ :=
    dtSlices (pad 4 v.year) (pad 2 v.month) (pad 2 v.day) (pad 2 v.hour)
      (pad 2 v.minute) (pad 2 v.second) suf l1 l2 l3 l4 l5 l6
  have hp1 : pyInt (pad 4 v.year) = some v.year := pyInt_pad 4 _ (by omega)
  have hp2 : pyInt (pad 2 v.month) = some v.month := pyInt_pad 2 _ (by omega)
  have hp3 : pyInt (pad 2 v.day) = some v.day := pyInt_pad 2 _ (by omega)
  have hp4 : pyInt (pad 2 v.hour) = some v.hour := pyInt_pad 2 _ (by omega)
  have hp5 : pyInt (pad 2 v.minute) = some v.minute := pyInt_pad 2 _ (by omega)
  have hp6 : pyInt (pad 2 v.second) = some v.second := pyInt_pad 2 _ (by omega)
  have hv2 : (validDateFields v.year v.month v.day &&
      validTimeFields v.hour v.minute v.second) = true := by
    simpa [PyDatetime.valid] using hv
  have s15 : pySlice (pad 4 v.year ++ (pad 2 v.month ++ (pad 2 v.day ++
      ('T' :: (pad 2 v.hour ++ (pad 2 v.minute ++ (pad 2 v.second ++ suf))))))) 15 16
      = suf.take 1 := by
    rw [pySlice, s7]
  simp only [vDatetime.from_ical, he, s1, s2, s3, s4, s5, s6, s7, s15,
    hp1, hp2, hp3, hp4, hp5, hp6, hv2, if_true]

theorem pytzTimezone_name (z : String) (zi : ZoneInfo) (h : pytzTimezone z = some zi) :
    zi.name = z := by
  unfold pytzTimezone at h
  have hp := @List.find?_some ZoneInfo (fun zz => zz.name == z) zi zoneTable h
  exact eq_of_beq hp

/-! ## Claims -/

/-- C3, corrected, counterexample: the claim states that any trailing suffix
other than exactly `Z` fails with InvalidValue, but the code only examines
the character at index 15, so `"20230101T120000ZX"` — whose suffix `ZX` is
neither empty nor `Z` — decodes successfully as a UTC moment instead of
failing. -/
theorem c3_suffix_counterexample :
    vDatetime.from_ical "20230101T120000ZX".data none
      = .ok ⟨2023, 1, 1, 12, 0, 0, some "UTC"⟩ := by decide

/-- C3 (amended): datetime decode zone handling, for every well-formed
`YYYYMMDDTHHMMSS` text (rendered from valid fields) and arbitrary tail.
If a recognized timezone identifier is supplied, the parsed naive fields are
localized into that zone (whatever the tail); with no identifier and no tail
the result is a timezone-naive moment; with no identifier and a tail whose
FIRST character is `Z` the result is a UTC-zoned moment (any characters
after the `Z` are ignored — the correction to the claim's "ends in literal
Z"); any other nonempty tail fails with InvalidValue. -/
theorem c3_datetime_zone_handling (y mo d h mi s : Int) (suf : PyStr)
    (hv : PyDatetime.valid ⟨y, mo, d, h, mi, s, none⟩ = true) :
    (∀ z zi, pytzTimezone z = some zi →
        vDatetime.from_ical (dtCore ⟨y, mo, d, h, mi, s, none⟩ ++ suf) (some z)
          = .ok ⟨y, mo, d, h, mi, s, some zi.name⟩) ∧
    vDatetime.from_ical (dtCore ⟨y, mo, d, h, mi, s, none⟩) none
      = .ok ⟨y, mo, d, h, mi, s, none⟩ ∧
    (∀ c rest, suf = c :: rest →
      (c = 'Z' →
        vDatetime.from_ical (dtCore ⟨y, mo, d, h, mi, s, none⟩ ++ suf) none
          = .ok ⟨y, mo, d, h, mi, s, some "UTC"⟩) ∧
      (c ≠ 'Z' →
        vDatetime.from_ical (dtCore ⟨y, mo, d, h, mi, s, none⟩ ++ suf) none
          = .error (.valueError ("Wrong datetime format: "
              ++ String.mk (dtCore ⟨y, mo, d, h, mi, s, none⟩ ++ suf))))) := by
  refine ⟨fun z zi hz => ?_, ?_, fun c rest hsuf => ⟨fun hc => ?_, fun hc => ?_⟩⟩
  · rw [vDatetime_from_ical_render _ hv suf (some z)]
    simp [hz]
  · have h2 := vDatetime_from_ical_render _ hv [] none
    rw [List.append_nil] at h2
    simpa using h2
  · subst hsuf; subst hc
    rw [vDatetime_from_ical_render _ hv _ none]
    simp
  · subst hsuf
    rw [vDatetime_from_ical_render _ hv _ none]
    simp [hc]

/-- Witness for C3's theorem at concrete inputs. -/
theorem c3_witness :
    vDatetime.from_ical ("20230101T120000".data ++ ['Z']) none
      = .ok ⟨2023, 1, 1, 12, 0, 0, some "UTC"⟩ := by
  have h := ((c3_datetime_zone_handling 2023 1 1 12 0 0 ['Z']
    (by decide)).2.2 'Z' [] rfl).1 rfl
  rw [show ("20230101T120000".data : PyStr)
      = dtCore ⟨2023, 1, 1, 12, 0, 0, none⟩ from by decide]
  exact h

/-- C1, corrected, counterexample: the round-trip `from_ical (to_ical v)`
(without re-supplying the TZID side-channel) maps the timezone-aware
non-UTC moment 2023-01-01 12:00:00 Europe/Vienna to a timezone-NAIVE moment,
and Python `==` on a naive and an aware datetime is `False`, so the claim's
"in particular this holds for timezone-aware non-UTC datetimes" fails. -/
theorem c1_roundtrip_counterexample :
    vDatetime.from_ical
        (vDatetime.to_ical ⟨2023, 1, 1, 12, 0, 0, some "Europe/Vienna"⟩) none
      = .ok ⟨2023, 1, 1, 12, 0, 0, none⟩ ∧
    pyDatetimeEq ⟨2023, 1, 1, 12, 0, 0, none⟩
      ⟨2023, 1, 1, 12, 0, 0, some "Europe/Vienna"⟩ = false := by decide

/-- C1 (amended): the datetime round-trip law holds verbatim (the decode
returns the identical value, hence a `==`-equal one) for timezone-naive
values and for UTC-zoned values; for a timezone-aware non-UTC value it holds
only when the zone identifier (the TZID parameter side-channel) is passed
back into the decode. -/
theorem c1_datetime_roundtrip (v : PyDatetime) (hv : v.valid = true) :
    (v.tz = none → vDatetime.from_ical (vDatetime.to_ical v) none = .ok v) ∧
    (v.tz = some "UTC" → vDatetime.from_ical (vDatetime.to_ical v) none = .ok v) ∧
    (∀ z zi, v.tz = some z → pytzTimezone z = some zi →
        pyLower z.data ≠ "utc".data →
        vDatetime.from_ical (vDatetime.to_ical v) (some z) = .ok v) := by
  obtain ⟨y, mo, d, h, mi, s, tz⟩ := v
  refine ⟨fun htz => ?_, fun htz => ?_, fun z zi htz hz hlow => ?_⟩
  · subst htz
    have he : vDatetime.to_ical ⟨y, mo, d, h, mi, s, none⟩
        = dtCore ⟨y, mo, d, h, mi, s, none⟩ := by
      simp [vDatetime.to_ical]
    have hren := vDatetime_from_ical_render ⟨y, mo, d, h, mi, s, none⟩ hv [] none
    rw [List.append_nil] at hren
    rw [he, hren]
    simp
  · subst htz
    have he : vDatetime.to_ical ⟨y, mo, d, h, mi, s, some "UTC"⟩
        = dtCore ⟨y, mo, d, h, mi, s, some "UTC"⟩ ++ ['Z'] := by
      simp only [vDatetime.to_ical]
      rw [if_pos (by decide)]
    have hren := vDatetime_from_ical_render ⟨y, mo, d, h, mi, s, some "UTC"⟩ hv ['Z'] none
    rw [he, hren]
    simp
  · subst htz
    have he : vDatetime.to_ical ⟨y, mo, d, h, mi, s, some z⟩
        = dtCore ⟨y, mo, d, h, mi, s, some z⟩ := by
      simp only [vDatetime.to_ical]
      rw [if_neg hlow, List.append_nil]
    have hren := vDatetime_from_ical_render ⟨y, mo, d, h, mi, s, some z⟩ hv [] (some z)
    rw [List.append_nil] at hren
    rw [he, hren]
    simp [hz, pytzTimezone_name z zi hz]

/-- Witness for C1's theorem: the Vienna moment of the counterexample does
round-trip once the zone is passed back. -/
theorem c1_witness :
    vDatetime.from_ical
        (vDatetime.to_ical ⟨2023, 1, 1, 12, 0, 0, some "Europe/Vienna"⟩)
        (some "Europe/Vienna")
      = .ok ⟨2023, 1, 1, 12, 0, 0, some "Europe/Vienna"⟩ :=
  (c1_datetime_roundtrip ⟨2023, 1, 1, 12, 0, 0, some "Europe/Vienna"⟩ (by decide)).2.2
    "Europe/Vienna" ⟨"Europe/Vienna", 3600, true⟩ rfl (by decide) (by decide)

/-- C10 (confirmed): an unrecognized timezone hint is silently ignored by
both the datetime and the time decoder — the `UnknownTimeZoneError` is
passed over, leaving `tzinfo = None`, so decoding behaves exactly as with no
hint at all (naive result, or UTC on a `Z` suffix) instead of failing. -/
theorem c10_unknown_timezone_ignored (s : PyStr) (z : String)
    (hz : pytzTimezone z = none) :
    vDatetime.from_ical s (some z) = vDatetime.from_ical s none ∧
    vTime.from_ical s (some z) = vTime.from_ical s none := by
  constructor
  · simp only [vDatetime.from_ical, hz]
  · simp only [vTime.from_ical, hz]

/-- Witness for C10's theorem at a concrete unknown zone. -/
theorem c10_witness :
    vDatetime.from_ical "20230101T120000Z".data (some "Not/AZone")
      = vDatetime.from_ical "20230101T120000Z".data none ∧
    vTime.from_ical "120000".data (some "Not/AZone")
      = vTime.from_ical "120000".data none :=
  ⟨(c10_unknown_timezone_ignored "20230101T120000Z".data "Not/AZone" (by decide)).1,
   (c10_unknown_timezone_ignored "120000".data "Not/AZone" (by decide)).2⟩

/-- C9 (confirmed): `vDate.from_ical` examines only the first eight
characters — for every 8-character text it accepts, appending any tail
yields the same date — and consequently the polymorphic temporal dispatcher
decodes the malformed datetime-like text `"20230101T9"` as the plain date
2023-01-01 instead of failing. -/
theorem c9_date_ignores_tail (s t : PyStr) (x : PyDate) (hlen : s.length = 8)
    (hok : vDate.from_ical s = .ok x) :
    vDate.from_ical (s ++ t) = .ok x ∧
    vDDDTypesFactory.from_ical "20230101T9".data none = .ok (.date ⟨2023, 1, 1⟩) := by
  constructor
  · have e1 : pySlice (s ++ t) 0 4 = pySlice s 0 4 := by
      simp only [pySlice, List.drop_zero]
      exact List.take_append_of_le_length (by omega)
    have e2 : pySlice (s ++ t) 4 6 = pySlice s 4 6 := by
      simp only [pySlice]
      rw [List.drop_append_of_le_length (by omega)]
      exact List.take_append_of_le_length (by simp [hlen])
    have e3 : pySlice (s ++ t) 6 8 = pySlice s 6 8 := by
      simp only [pySlice]
      rw [List.drop_append_of_le_length (by omega)]
      exact List.take_append_of_le_length (by simp [hlen])
    unfold vDate.from_ical at hok ⊢
    rw [e1, e2, e3]
    cases h1 : pyInt (pySlice s 0 4) with
    | none => rw [h1] at hok; exact absurd hok (by simp)
    | some y =>
      cases h2 : pyInt (pySlice s 4 6) with
      | none => rw [h1, h2] at hok; exact absurd hok (by simp)
      | some m =>
        cases h3 : pyInt (pySlice s 6 8) with
        | none => rw [h1, h2, h3] at hok; exact absurd hok (by simp)
        | some d =>
          rw [h1, h2, h3] at hok
          simp only at hok ⊢
          split at hok
          · rename_i hvalid
            rw [if_pos hvalid]
            exact hok
          · exact absurd hok (by simp)
  · decide

/-- Witness for C9's theorem: the dispatcher input of the claim, decomposed
as an accepted 8-character date followed by the ignored tail `T9`. -/
theorem c9_witness :
    vDate.from_ical ("20230101".data ++ "T9".data) = .ok ⟨2023, 1, 1⟩ ∧
    vDDDTypesFactory.from_ical "20230101T9".data none = .ok (.date ⟨2023, 1, 1⟩) :=
  c9_date_ignores_tail "20230101".data "T9".data ⟨2023, 1, 1⟩ (by decide) (by decide)

/-- C2 (code_bug, evaluation at the failing input): decode-then-encode does
reorder rule parts into the canonical order — `"BYDAY=MO;FREQ=DAILY"`
re-encodes as `"FREQ=DAILY;BYDAY=MO"`, and the non-canonical insertion order
of `"FREQ=WEEKLY;BYDAY=MO,WE,FR;COUNT=10"` re-encodes with `COUNT` before
`BYDAY` — but a rule carrying the canonical part `BYWEEKNO`, which
`from_ical` accepts (falling back to the text codec), cannot be encoded at
all: `self.types[key]` raises an uncaught `KeyError`, because `BYWEEKNO` is
missing from `vRecur.types` although it is listed in
`vRecur.canonical_order`. -/
theorem c2_byweekno_keyerror :
    (vRecur.from_ical "BYDAY=MO;FREQ=DAILY".data).bind vRecur.to_ical
      = .ok "FREQ=DAILY;BYDAY=MO".data ∧
    (vRecur.from_ical "FREQ=WEEKLY;BYDAY=MO,WE,FR;COUNT=10".data).bind vRecur.to_ical
      = .ok "FREQ=WEEKLY;COUNT=10;BYDAY=MO,WE,FR".data ∧
    vRecur.from_ical "BYWEEKNO=5;FREQ=YEARLY".data
      = .ok [("BYWEEKNO".data, [.str ['5']]), ("FREQ".data, [.str "YEARLY".data])] ∧
    (vRecur.from_ical "BYWEEKNO=5;FREQ=YEARLY".data).bind vRecur.to_ical
      = .error (.keyError "BYWEEKNO") := by decide

theorem padNum_ne_nil (w n : Nat) : padNum w n ≠ [] := by
  simp only [padNum]
  intro h
  exact natDigits_ne_nil n (List.append_eq_nil.mp h).2

/-- C4 (confirmed): UTC-offset decode.  The first character is the sign
slice (`-` negates, anything else leaves the offset positive), the 2/2/(2)
digit slices are hours/minutes/seconds; a decoded magnitude of 24 hours or
more fails with the dedicated InvalidValue, and malformed digit groups fail
with the generic one.  Stated for every rendered sign/field combination and,
in the last conjunct, for every text with a malformed digit group. -/
theorem c4_utcoffset_decode (c : Char) (h m s : Nat)
    (hh : h < 100) (hm : m < 100) (hs : s < 100) :
    ((h : Int) * 3600 + m * 60 + s < 86400 →
      vUTCOffset.from_ical (c :: (padNum 2 h ++ (padNum 2 m ++ padNum 2 s)))
        = .ok (if c = '-' then -((h : Int) * 3600 + m * 60 + s)
               else (h : Int) * 3600 + m * 60 + s)) ∧
    ((h : Int) * 3600 + m * 60 + s ≥ 86400 →
      vUTCOffset.from_ical (c :: (padNum 2 h ++ (padNum 2 m ++ padNum 2 s)))
        = .error (.valueError ("Offset must be less than 24 hours, was "
            ++ String.mk (c :: (padNum 2 h ++ (padNum 2 m ++ padNum 2 s)))))) ∧
    ((h : Int) * 3600 + m * 60 < 86400 →
      vUTCOffset.from_ical (c :: (padNum 2 h ++ padNum 2 m))
        = .ok (if c = '-' then -((h : Int) * 3600 + m * 60)
               else (h : Int) * 3600 + m * 60)) ∧
    ((h : Int) * 3600 + m * 60 ≥ 86400 →
      vUTCOffset.from_ical (c :: (padNum 2 h ++ padNum 2 m))
        = .error (.valueError ("Offset must be less than 24 hours, was "
            ++ String.mk (c :: (padNum 2 h ++ padNum 2 m))))) ∧
    (∀ cs : PyStr,
      pyInt (pySlice cs 1 3) = none ∨ pyInt (pySlice cs 3 5) = none ∨
        (pySlice cs 5 7 ≠ [] ∧ pyInt (pySlice cs 5 7) = none) →
      vUTCOffset.from_ical cs
        = .error (.valueError ("Expected utc offset, got: " ++ String.mk cs))) := by
  have lh : (padNum 2 h).length = 2 := padNum_length 2 h (by norm_num) (by omega)
  have lm : (padNum 2 m).length = 2 := padNum_length 2 m (by norm_num) (by omega)
  have ls : (padNum 2 s).length = 2 := padNum_length 2 s (by norm_num) (by omega)
  have hph : pyInt (padNum 2 h) = some (h : Int) := pyInt_padNum 2 h
  have hpm : pyInt (padNum 2 m) = some (m : Int) := pyInt_padNum 2 m
  have hps : pyInt (padNum 2 s) = some (s : Int) := pyInt_padNum 2 s
  have e0 : ∀ rest : PyStr, pySlice (c :: rest) 0 1 = [c] := fun rest => by
    have hs1 := slice_first (b := [c]) rest rfl
    simpa using hs1
  have e1 : pySlice (c :: (padNum 2 h ++ (padNum 2 m ++ padNum 2 s))) 1 3 = padNum 2 h := by
    have := slice_at (a := [c]) (b := padNum 2 h) (padNum 2 m ++ padNum 2 s) 1 2 rfl lh
    simpa using this
  have e2 : pySlice (c :: (padNum 2 h ++ (padNum 2 m ++ padNum 2 s))) 3 5 = padNum 2 m := by
    have := slice_at (a := [c] ++ padNum 2 h) (b := padNum 2 m) (padNum 2 s)
      3 2 (by simp [lh]) lm
    simpa using this
  have e3 : pySlice (c :: (padNum 2 h ++ (padNum 2 m ++ padNum 2 s))) 5 7 = padNum 2 s := by
    have := slice_at (a := [c] ++ padNum 2 h ++ padNum 2 m) (b := padNum 2 s)
      ([] : PyStr) 5 2 (by simp [lh, lm]) ls
    simpa using this
  have f1 : pySlice (c :: (padNum 2 h ++ padNum 2 m)) 1 3 = padNum 2 h := by
    have := slice_at (a := [c]) (b := padNum 2 h) (padNum 2 m) 1 2 rfl lh
    simpa using this
  have f2 : pySlice (c :: (padNum 2 h ++ padNum 2 m)) 3 5 = padNum 2 m := by
    have := slice_at (a := [c] ++ padNum 2 h) (b := padNum 2 m) ([] : PyStr)
      3 2 (by simp [lh]) lm
    simpa using this
  have f3 : pySlice (c :: (padNum 2 h ++ padNum 2 m)) 5 7 = [] := by
    have hlen : (c :: (padNum 2 h ++ padNum 2 m)).length = 5 := by simp [lh, lm]
    simp only [pySlice]
    rw [show (5 : Nat) = (c :: (padNum 2 h ++ padNum 2 m)).length from hlen.symm,
      List.drop_length, List.take_nil]
  refine ⟨fun hlt => ?_, fun hge => ?_, fun hlt => ?_, fun hge => ?_, fun cs hmal => ?_⟩
  · rw [vUTCOffset.from_ical.eq_def, e1, e2, e3, if_neg (padNum_ne_nil 2 s),
      hph, hpm, hps]
    simp only
    rw [if_neg (by omega), e0]
    by_cases hc : c = '-'
    · subst hc; simp
    · rw [if_neg (by simpa using hc), if_neg hc]
  · rw [vUTCOffset.from_ical.eq_def, e1, e2, e3, if_neg (padNum_ne_nil 2 s),
      hph, hpm, hps]
    simp only
    rw [if_pos (by omega)]
  · rw [vUTCOffset.from_ical.eq_def, f1, f2, f3, if_pos rfl, hph, hpm]
    simp only
    rw [if_neg (by omega), e0]
    by_cases hc : c = '-'
    · subst hc; simp
    · rw [if_neg (by simpa using hc), if_neg hc]
      norm_num
  · rw [vUTCOffset.from_ical.eq_def, f1, f2, f3, if_pos rfl, hph, hpm]
    simp only
    rw [if_pos (by omega)]
  · rcases hmal with h1 | h2 | ⟨h3a, h3b⟩
    · rw [vUTCOffset.from_ical.eq_def, h1]
    · rw [vUTCOffset.from_ical.eq_def, h2]
      cases pyInt (pySlice cs 1 3) <;>
        cases (if pySlice cs 5 7 = [] then some (0 : Int) else pyInt (pySlice cs 5 7)) <;> rfl
    · rw [vUTCOffset.from_ical.eq_def, if_neg h3a, h3b]
      cases pyInt (pySlice cs 1 3) <;> cases pyInt (pySlice cs 3 5) <;> rfl

/-- Witness for C4's theorem: the three examples of the claim. -/
theorem c4_witness :
    vUTCOffset.from_ical "-0500".data = .ok (-18000) ∧
    vUTCOffset.from_ical "+023000".data = .ok 9000 ∧
    vUTCOffset.from_ical "+2400".data
      = .error (.valueError "Offset must be less than 24 hours, was +2400") := by
  refine ⟨?_, ?_, ?_⟩
  · have h := (c4_utcoffset_decode '-' 5 0 0 (by norm_num) (by norm_num)
      (by norm_num)).2.2.1 (by norm_num)
    rw [show ("-0500".data : PyStr) = '-' :: (padNum 2 5 ++ padNum 2 0) from by decide]
    rw [h]; decide
  · have h := (c4_utcoffset_decode '+' 2 30 0 (by norm_num) (by norm_num)
      (by norm_num)).1 (by norm_num)
    rw [show ("+023000".data : PyStr)
        = '+' :: (padNum 2 2 ++ (padNum 2 30 ++ padNum 2 0)) from by decide]
    rw [h]; decide
  · have h := (c4_utcoffset_decode '+' 24 0 0 (by norm_num) (by norm_num)
      (by norm_num)).2.2.2.1 (by norm_num)
    rw [show ("+2400".data : PyStr) = '+' :: (padNum 2 24 ++ padNum 2 0) from by decide]
    rw [h]; decide

/-- The operand pairs on which Python's period arithmetic is defined (same
temporal kind; same awareness for two datetimes).  A mixed pair raises
`TypeError` from the subtraction or comparison in `vPeriod.__init__`, which
the claim does not address. -/
def periodCompatible : PeriodStart → PeriodEnd → Bool
  | .date _, .date _ => true
  | .date _, .duration _ => true
  | .datetime s, .datetime e => s.tz.isSome == e.tz.isSome
  | .datetime _, .duration _ => true
  | _, _ => false

/-- The resolved end of a period: the given end, or start plus duration. -/
def resolvedEnd : PeriodStart → PeriodEnd → PeriodStart
  | .date s, .duration t => .date (pyDateAdd s t)
  | .datetime s, .duration t => .datetime (pyDatetimeAdd s t)
  | _, .date e => .date e
  | _, .datetime e => .datetime e

/-- Chronological `start > end` on same-kind operands. -/
def chronoGt : PeriodStart → PeriodStart → Bool
  | .date a, .date b => pyDateGt a b
  | .datetime a, .datetime b =>
      match pyDatetimeGt a b with
      | .ok r => r
      | .error _ => false
  | _, _ => false

/-- C5 (confirmed): for compatible operands, period construction fails with
InvalidValue exactly when the start is chronologically greater than the
resolved end (the given end, or start plus the given duration), and
succeeds otherwise. -/
theorem c5_period_invariant (start : PeriodStart) (eod : PeriodEnd)
    (hc : periodCompatible start eod = true) :
    (vPeriod.init start eod
        = .error (.valueError "Start time is greater than end time")
      ↔ chronoGt start (resolvedEnd start eod) = true) ∧
    ((vPeriod.init start eod).isOk = true
      ↔ chronoGt start (resolvedEnd start eod) = false) := by
  cases start with
  | date s =>
    cases eod with
    | date e =>
      cases hgt : pyDateGt s e <;>
        simp [vPeriod.init, Bind.bind, Except.bind, Except.map, resolvedEnd, chronoGt, hgt, Except.isOk, Except.toBool]
    | datetime e => simp [periodCompatible] at hc
    | duration t =>
      cases hgt : pyDateGt s (pyDateAdd s t) <;>
        simp [vPeriod.init, Bind.bind, Except.bind, Except.map, resolvedEnd, chronoGt, hgt, Except.isOk, Except.toBool]
  | datetime s =>
    cases eod with
    | date e => simp [periodCompatible] at hc
    | datetime e =>
      simp only [periodCompatible, beq_iff_eq] at hc
      cases hs : s.tz with
      | none =>
        cases he : e.tz with
        | none =>
          cases hgt : decide (e.wallSecs < s.wallSecs) <;>
            simp [vPeriod.init, Bind.bind, Except.bind, Except.map, resolvedEnd, chronoGt, pyDatetimeGt, pyDatetimeSub,
              hs, he, hgt, Except.isOk, Except.toBool]
        | some ze => rw [hs, he] at hc; simp at hc
      | some zs =>
        cases he : e.tz with
        | none => rw [hs, he] at hc; simp at hc
        | some ze =>
          cases hgt : decide (e.wallSecs - zoneOffset ze < s.wallSecs - zoneOffset zs) <;>
            simp [vPeriod.init, Bind.bind, Except.bind, Except.map, resolvedEnd, chronoGt, pyDatetimeGt, pyDatetimeSub,
              hs, he, hgt, Except.isOk, Except.toBool]
    | duration t =>
      have hadd : (pyDatetimeAdd s t).tz = s.tz := rfl
      cases hs : s.tz with
      | none =>
        cases hgt : decide ((pyDatetimeAdd s t).wallSecs < s.wallSecs) <;>
          simp [vPeriod.init, Bind.bind, Except.bind, Except.map, resolvedEnd, chronoGt, pyDatetimeGt, hadd, hs, hgt,
            Except.isOk, Except.toBool]
      | some zs =>
        cases hgt : decide ((pyDatetimeAdd s t).wallSecs < s.wallSecs) <;>
          simp [vPeriod.init, Bind.bind, Except.bind, Except.map, resolvedEnd, chronoGt, pyDatetimeGt, hadd, hs, hgt,
            Except.isOk, Except.toBool]

/-- Witness for C5's theorem: a one-day by-duration period constructs, and
an inverted start/end pair is rejected with the InvalidValue. -/
theorem c5_witness :
    (vPeriod.init (.datetime ⟨2023, 1, 1, 0, 0, 0, none⟩) (.duration 86400)).isOk
      = true ∧
    vPeriod.init (.datetime ⟨2023, 1, 2, 0, 0, 0, none⟩)
        (.datetime ⟨2023, 1, 1, 0, 0, 0, none⟩)
      = .error (.valueError "Start time is greater than end time") :=
  ⟨(c5_period_invariant (.datetime ⟨2023, 1, 1, 0, 0, 0, none⟩) (.duration 86400)
      (by decide)).2.mpr (by decide),
   (c5_period_invariant (.datetime ⟨2023, 1, 2, 0, 0, 0, none⟩)
      (.datetime ⟨2023, 1, 1, 0, 0, 0, none⟩) (by decide)).1.mpr (by decide)⟩

/-- C6, corrected, counterexample: `"####"` is not valid base64, yet decode
silently succeeds with the empty byte string — `b64decode`'s default mode
discards the foreign characters before decoding — instead of failing with
InvalidValue as the claim states. -/
theorem c6_binary_counterexample :
    vBinary.from_ical "####".data = .ok [] := by decide

theorem b64decode_error_msgs (s : PyStr) (msg : String) (h : b64decode s = .error msg) :
    msg = "Invalid base64-encoded string: number of data characters cannot be 1 more than a multiple of 4"
      ∨ msg = "Incorrect padding" := by
  simp only [b64decode] at h
  split_ifs at h
  · exact Or.inl (Except.error.inj h).symm
  · exact Or.inr (Except.error.inj h).symm

/-- C6 (amended): invalid-alphabet characters are discarded before decoding
(so many non-base64 texts decode successfully); when the kept text has bad
length or padding, the base64 library's own `ValueError` escapes — the
codec's `'Not valid base 64 encoding.'` error is unreachable, since its
handler catches only `UnicodeError`, which `b64decode` never raises — and
valid base64 decodes to the denoted bytes. -/
theorem c6_binary_decode :
    (∀ s : PyStr, vBinary.from_ical s
        ≠ .error (.valueError "Not valid base 64 encoding.")) ∧
    vBinary.from_ical "aGVsbG8=".data = .ok [104, 101, 108, 108, 111] ∧
    vBinary.from_ical "YQ".data = .error (.valueError "Incorrect padding") := by
  refine ⟨fun s => ?_, by decide, by decide⟩
  unfold vBinary.from_ical
  cases hb : b64decode s with
  | ok bs => simp
  | error m =>
    simp only [ne_eq, Except.error.injEq, PyErr.valueError.injEq]
    intro hcon
    rcases b64decode_error_msgs s m hb with h | h <;> simp [h] at hcon

/-- Witness for C6's theorem at concrete inputs. -/
theorem c6_witness :
    vBinary.from_ical "####".data
        ≠ .error (.valueError "Not valid base 64 encoding.") ∧
    vBinary.from_ical "aGVsbG8=".data = .ok [104, 101, 108, 108, 111] :=
  ⟨c6_binary_decode.1 "####".data, c6_binary_decode.2.1⟩

/-- C7, corrected, counterexample: `"a@b.mailto:c"` does not START with a
`mailto:` scheme and matches the minimal address shape, so the claim demands
the `mailto:` prefix; but the code tests CONTAINMENT of `"mailto:"` and
therefore passes the text through unchanged. -/
theorem c7_caladdress_counterexample :
    vCalAddress.value "a@b.mailto:c".data = "a@b.mailto:c".data ∧
    reMatchMailAddr "a@b.mailto:c".data = true ∧
    List.isPrefixOf "mailto:".data (pyLower "a@b.mailto:c".data) = false := by decide

/-- C7 (amended): the encoded text is prefixed with `mailto:` iff the
lower-cased text does not CONTAIN `mailto:` (not merely "does not start
with") and the text matches the minimal `local@domain.tld` shape; otherwise
it passes through unchanged. -/
theorem c7_caladdress (s : PyStr) :
    (vCalAddress.value s = mailtoChars ++ s
      ↔ (hasSubstr (pyLower s) mailtoChars = false ∧ reMatchMailAddr s = true)) ∧
    (hasSubstr (pyLower s) mailtoChars = true ∨ reMatchMailAddr s = false →
      vCalAddress.value s = s) := by
  have hne : s ≠ mailtoChars ++ s := by
    intro heq
    have hl := congrArg List.length heq
    simp [mailtoChars] at hl
    omega
  unfold vCalAddress.value
  by_cases h1 : hasSubstr (pyLower s) mailtoChars <;>
    by_cases h2 : reMatchMailAddr s <;>
    simp [h1, h2, hne]

/-- Witness for C7's theorem: a plain address gets the prefix; a text
already carrying `mailto:` passes through. -/
theorem c7_witness :
    vCalAddress.value "jdoe@example.org".data
      = mailtoChars ++ "jdoe@example.org".data ∧
    vCalAddress.value "mailto:jdoe@example.org".data
      = "mailto:jdoe@example.org".data :=
  ⟨(c7_caladdress "jdoe@example.org".data).1.mpr ⟨by decide, by decide⟩,
   (c7_caladdress "mailto:jdoe@example.org".data).2 (Or.inl (by decide))⟩

theorem forProperty_isSome (name : PyStr) :
    (TypesFactory.for_property name).isSome = true := by
  unfold TypesFactory.for_property
  cases hv : caselessGet typesMap name with
  | none => decide
  | some v =>
    have hmem : ∃ p ∈ typesMap, p.2 = v := by
      unfold caselessGet at hv
      cases hf : typesMap.find? (fun p => p.1 = pyUpper name) with
      | none => rw [hf] at hv; simp at hv
      | some p =>
        rw [hf] at hv
        simp at hv
        exact ⟨p, List.mem_of_find?_eq_some hf, hv⟩
    obtain ⟨p, hp, rfl⟩ := hmem
    have hall : typesMap.all (fun q => (caselessGet factoryTable q.2).isSome) = true := by
      decide
    rw [List.all_eq_true] at hall
    simpa using hall p hp

/-- C8 (code_bug, supporting theorem): registry codec lookup is
case-insensitive, names absent from the map resolve to the text codec, the
lookup never fails, and the decode entry point returns exactly what the
codec selected for the name returns.  The encode entry point is the
code_bug: `TypesFactory.to_ical` executes `import pdb; pdb.set_trace()` — an
interactive debugger breakpoint, a side effect a pure embedding cannot
represent and which suspends the program — before delegating to the
selected codec. -/
theorem c8_registry_dispatch :
    (∀ name : PyStr, TypesFactory.for_property (pyUpper name)
        = TypesFactory.for_property name) ∧
    (∀ name : PyStr, caselessGet typesMap name = none →
        TypesFactory.for_property name = some .text) ∧
    (∀ name : PyStr, (TypesFactory.for_property name).isSome = true) ∧
    (∀ name value : PyStr, ∀ tag, TypesFactory.for_property name = some tag →
        TypesFactory.from_ical name value = codecDecode tag value) ∧
    TypesFactory.for_property "dtstart".data = some .ddd ∧
    TypesFactory.for_property "RRULE".data = some .recur ∧
    TypesFactory.for_property "X-CUSTOM".data = some .text := by
  refine ⟨fun name => ?_, fun name h => ?_, forProperty_isSome,
    fun name value tag h => ?_, by decide, by decide, by decide⟩
  · unfold TypesFactory.for_property
    rw [caselessGet_pyUpper]
  · unfold TypesFactory.for_property
    rw [h]
    decide
  · unfold TypesFactory.from_ical
    rw [h]

/-- Witness for C8's theorem: the `dtstart` dispatch at a concrete value. -/
theorem c8_witness :
    TypesFactory.from_ical "dtstart".data "20230101T000000Z".data
      = codecDecode .ddd "20230101T000000Z".data :=
  c8_registry_dispatch.2.2.2.1 "dtstart".data "20230101T000000Z".data .ddd (by decide)

end ICal
